import Mathlib

/-!
A verification development for the travel-itinerary gap reconciliation
program (files `async_travel_parser.py` and `add_connection_analysis.py`).

Python strings are modelled as lists of Unicode code points (`Pstr`),
which keeps every definition executable and kernel-friendly.  String
operations (`strip`, `upper`, `lower`, substring membership, `split`)
are modelled at ASCII fidelity, which covers all inputs the program's
comparisons act on.  `datetime.strptime` for `%Y-%m-%d` and `%H:%M` is
modelled by explicit validating parsers that mirror CPython's `_strptime`
regular expressions, and calendar dates are mapped to day numbers with
the standard civil-from-days algorithm so that `timedelta` arithmetic
becomes plain `Nat` arithmetic.
-/

/-- A Python string, as its list of code points. -/
abbrev Pstr := List Nat

/-- Readable notation for concrete `Pstr` literals. -/
def S (s : String) : Pstr := s.data.map Char.toNat

/-- Python `str.strip` whitespace test (ASCII whitespace). -/
def isSpaceN (n : Nat) : Bool :=
  decide (n = 32 ∨ n = 9 ∨ n = 10 ∨ n = 13 ∨ n = 11 ∨ n = 12)

/-- One code point of Python `str.upper` (ASCII). -/
def upperN (n : Nat) : Nat := if 97 ≤ n ∧ n ≤ 122 then n - 32 else n

/-- One code point of Python `str.lower` (ASCII). -/
def lowerN (n : Nat) : Nat := if 65 ≤ n ∧ n ≤ 90 then n + 32 else n

/-- Python `s.strip()`. -/
def pyStrip (s : Pstr) : Pstr :=
  ((s.dropWhile fun c => isSpaceN c).reverse.dropWhile fun c => isSpaceN c).reverse

/-- Python `s.upper()`. -/
def pyUpper (s : Pstr) : Pstr := s.map upperN

/-- Python `s.lower()`. -/
def pyLower (s : Pstr) : Pstr := s.map lowerN

/-- Does `hay` start with `needle`? -/
def leadMatch : Pstr → Pstr → Bool
  | [], _ => true
  | _ :: _, [] => false
  | c :: cs, h :: hs => c = h && leadMatch cs hs

/-- Python `needle in hay` (substring containment; empty needle always holds). -/
def strContains : Pstr → Pstr → Bool
  | [], needle => leadMatch needle []
  | c :: t, needle => leadMatch needle (c :: t) || strContains t needle

/-- Python `str.isalpha` at ASCII fidelity (one code point). -/
def isAlphaN (n : Nat) : Bool := (65 ≤ n && n ≤ 90) || (97 ≤ n && n ≤ 122)

/-- ASCII digit test. -/
def isDigitN (n : Nat) : Bool := 48 ≤ n && n ≤ 57

/-- Value of a string of ASCII digits. -/
def digitsVal (s : Pstr) : Nat := s.foldl (fun a c => a * 10 + (c - 48)) 0

/-- Python `s.split(sep)` for a single-character separator `sep`. -/
def splitOnChar (c : Nat) (s : Pstr) : List Pstr :=
  match s with
  | [] => [[]]
  | x :: xs =>
    let r := splitOnChar c xs
    if x = c then [] :: r
    else match r with
      | [] => [[x]]
      | p :: ps => (x :: p) :: ps

/-- Days in a month of the proleptic Gregorian calendar. -/
def daysInMonth (y m : Nat) : Nat :=
  if m = 2 then (if y % 4 = 0 ∧ (y % 100 ≠ 0 ∨ y % 400 = 0) then 29 else 28)
  else if m = 4 ∨ m = 6 ∨ m = 9 ∨ m = 11 then 30
  else 31

/-- Day number of a civil date (days since 0000-03-01), valid for `1 ≤ y`,
`1 ≤ m ≤ 12`.  Differences of day numbers agree with `timedelta` days. -/
def daysFromCivil (y m d : Nat) : Nat :=
  let y' := if 3 ≤ m then y else y - 1
  let m' := if 3 ≤ m then m - 3 else m + 9
  365 * y' + y' / 4 - y' / 100 + y' / 400 + (153 * m' + 2) / 5 + (d - 1)

/-- Day number of `datetime.min` (0001-01-01). -/
def dateMinDay : Nat := daysFromCivil 1 1 1

/-- Day number of `datetime.max`'s date (9999-12-31). -/
def dateMaxDay : Nat := daysFromCivil 9999 12 31

/-- `datetime.strptime(s, '%Y-%m-%d')`, as the day number of the parsed
date, or `none` where CPython raises `ValueError`.  `%Y` requires exactly
four digits; `%m` and `%d` take one or two digits within range, and the
day is validated against the month length. -/
def parseDate (s : Pstr) : Option Nat :=
  match splitOnChar 45 s with
  | [ys, ms, ds] =>
    if ys.length = 4 ∧ ys.all (fun c => isDigitN c)
       ∧ 1 ≤ ms.length ∧ ms.length ≤ 2 ∧ ms.all (fun c => isDigitN c)
       ∧ 1 ≤ ds.length ∧ ds.length ≤ 2 ∧ ds.all (fun c => isDigitN c) then
      let y := digitsVal ys
      let mo := digitsVal ms
      let d := digitsVal ds
      if 1 ≤ y ∧ 1 ≤ mo ∧ mo ≤ 12 ∧ 1 ≤ d ∧ d ≤ daysInMonth y mo then
        some (daysFromCivil y mo d)
      else none
    else none
  | _ => none

/-- Python `int(s)` restricted to an optional sign followed by digits,
returning `none` where CPython raises `ValueError`. -/
def pyInt (s : Pstr) : Option Int :=
  match s with
  | 43 :: rest =>
    if rest ≠ [] ∧ rest.all (fun c => isDigitN c) then some (digitsVal rest) else none
  | 45 :: rest =>
    if rest ≠ [] ∧ rest.all (fun c => isDigitN c) then some (-(digitsVal rest : Int)) else none
  | _ =>
    if s ≠ [] ∧ s.all (fun c => isDigitN c) then some (digitsVal s) else none

/-- The departure-time handling inside `get_sort_key`: a time string is
split on `':'`; exactly two integer parts in range (so that the
reformatted `HH:MM` string satisfies `strptime('%H:%M')`) give the
minutes past midnight, and every failure falls back to midnight. -/
def parseTimeOrMidnight (t : Pstr) : Nat :=
  if t ≠ [] ∧ t ≠ S (r"N/A") then
    match splitOnChar 58 t with
    | [hs, ms] =>
      match pyInt hs, pyInt ms with
      | some h, some m =>
        if 0 ≤ h ∧ h ≤ 23 ∧ 0 ≤ m ∧ m ≤ 59 then (h * 60 + m).toNat else 0
      | _, _ => 0
    | _ => 0
  else 0

/-- A row of the travel table (`TravelLeg`). -/
structure Entry where
  departure_country : Pstr
  departure_city : Pstr
  departure_date : Pstr
  departure_time : Pstr
  arrival_country : Pstr
  arrival_city : Pstr
  arrival_date : Pstr
  arrival_time : Pstr
  notes : Pstr
  source_file : Pstr
deriving DecidableEq

/-- `get_sort_key` of `sort_travel_data_chronologically`: minutes since the
epoch of the civil day count, with the 1900-01-01 sentinel when the
departure date fails to parse. -/
def get_sort_key (e : Entry) : Nat :=
  match parseDate e.departure_date with
  | some d => d * 1440 + parseTimeOrMidnight e.departure_time
  | none => daysFromCivil 1900 1 1 * 1440

/-- The comparison `sorted` uses on sort keys. -/
def entryLE (a b : Entry) : Bool := get_sort_key a ≤ get_sort_key b

/-- `AsyncTravelParser.sort_travel_data_chronologically` (the returned
value; the negative-gap diagnostic printing is reporting only). Python's
`sorted` is a stable sort by `get_sort_key`, modelled by `mergeSort`. -/
def sort_travel_data_chronologically (td : List Entry) : List Entry :=
  td.mergeSort entryLE

/-- The `country_mappings` dict literal of
`AsyncTravelParser.normalize_country_code`, in source order.  The Python
dict literal contains some repeated keys; every repetition carries the
same value, so first-match `List.lookup` agrees with the dict. -/
def countryMappings : List (Pstr × Pstr) := [
  (S (r"UK"), S (r"GB")),
  (S (r"UNITED KINGDOM"), S (r"GB")),
  (S (r"BRITAIN"), S (r"GB")),
  (S (r"ENGLAND"), S (r"GB")),
  (S (r"SCOTLAND"), S (r"GB")),
  (S (r"WALES"), S (r"GB")),
  (S (r"USA"), S (r"US")),
  (S (r"UNITED STATES"), S (r"US")),
  (S (r"AMERICA"), S (r"US")),
  (S (r"USA"), S (r"US")),
  (S (r"DEUTSCHLAND"), S (r"DE")),
  (S (r"ALLEMAGNE"), S (r"DE")),
  (S (r"FRANCE"), S (r"FR")),
  (S (r"ESPANA"), S (r"ES")),
  (S (r"SPAIN"), S (r"ES")),
  (S (r"ITALIA"), S (r"IT")),
  (S (r"ITALY"), S (r"IT")),
  (S (r"NEDERLAND"), S (r"NL")),
  (S (r"HOLLAND"), S (r"NL")),
  (S (r"NEDERLANDEN"), S (r"NL")),
  (S (r"BELGIE"), S (r"BE")),
  (S (r"BELGIUM"), S (r"BE")),
  (S (r"SCHWEIZ"), S (r"CH")),
  (S (r"SUISSE"), S (r"CH")),
  (S (r"SVIZZERA"), S (r"CH")),
  (S (r"OSTERREICH"), S (r"AT")),
  (S (r"AUSTRIA"), S (r"AT")),
  (S (r"DANMARK"), S (r"DK")),
  (S (r"DENMARK"), S (r"DK")),
  (S (r"SVERIGE"), S (r"SE")),
  (S (r"SWEDEN"), S (r"SE")),
  (S (r"NORGE"), S (r"NO")),
  (S (r"NORWAY"), S (r"NO")),
  (S (r"SUOMI"), S (r"FI")),
  (S (r"FINLAND"), S (r"FI")),
  (S (r"ISLAND"), S (r"IS")),
  (S (r"ICELAND"), S (r"IS")),
  (S (r"EIRE"), S (r"IE")),
  (S (r"IRELAND"), S (r"IE")),
  (S (r"POLSKA"), S (r"PL")),
  (S (r"POLAND"), S (r"PL")),
  (S (r"CESKA REPUBLIKA"), S (r"CZ")),
  (S (r"CZECH REPUBLIC"), S (r"CZ")),
  (S (r"CZECHIA"), S (r"CZ")),
  (S (r"MAGYARORSZAG"), S (r"HU")),
  (S (r"HUNGARY"), S (r"HU")),
  (S (r"SLOVENSKO"), S (r"SK")),
  (S (r"SLOVAKIA"), S (r"SK")),
  (S (r"SLOVENIJA"), S (r"SI")),
  (S (r"SLOVENIA"), S (r"SI")),
  (S (r"HRVATSKA"), S (r"HR")),
  (S (r"CROATIA"), S (r"HR")),
  (S (r"SRBIJA"), S (r"RS")),
  (S (r"SERBIA"), S (r"RS")),
  (S (r"BULGARIA"), S (r"BG")),
  (S (r"ROMANIA"), S (r"RO")),
  (S (r"ELLADA"), S (r"GR")),
  (S (r"GREECE"), S (r"GR")),
  (S (r"TURKIYE"), S (r"TR")),
  (S (r"TURKEY"), S (r"TR")),
  (S (r"ROSSIYA"), S (r"RU")),
  (S (r"RUSSIA"), S (r"RU")),
  (S (r"UKRAINA"), S (r"UA")),
  (S (r"UKRAINE"), S (r"UA")),
  (S (r"BELARUS"), S (r"BY")),
  (S (r"LITHUANIA"), S (r"LT")),
  (S (r"LATVIA"), S (r"LV")),
  (S (r"ESTONIA"), S (r"EE")),
  (S (r"PORTUGAL"), S (r"PT")),
  (S (r"LUXEMBOURG"), S (r"LU")),
  (S (r"MALTA"), S (r"MT")),
  (S (r"CYPRUS"), S (r"CY")),
  (S (r"LIECHTENSTEIN"), S (r"LI")),
  (S (r"MONACO"), S (r"MC")),
  (S (r"ANDORRA"), S (r"AD")),
  (S (r"SAN MARINO"), S (r"SM")),
  (S (r"VATICAN"), S (r"VA")),
  (S (r"JAPAN"), S (r"JP")),
  (S (r"NIPPON"), S (r"JP")),
  (S (r"KOREA"), S (r"KR")),
  (S (r"SOUTH KOREA"), S (r"KR")),
  (S (r"CHINA"), S (r"CN")),
  (S (r"TAIWAN"), S (r"TW")),
  (S (r"HONG KONG"), S (r"HK")),
  (S (r"MACAU"), S (r"MO")),
  (S (r"INDIA"), S (r"IN")),
  (S (r"PAKISTAN"), S (r"PK")),
  (S (r"BANGLADESH"), S (r"BD")),
  (S (r"SRI LANKA"), S (r"LK")),
  (S (r"MALDIVES"), S (r"MV")),
  (S (r"NEPAL"), S (r"NP")),
  (S (r"BHUTAN"), S (r"BT")),
  (S (r"AFGHANISTAN"), S (r"AF")),
  (S (r"IRAN"), S (r"IR")),
  (S (r"IRAQ"), S (r"IQ")),
  (S (r"SYRIA"), S (r"SY")),
  (S (r"LEBANON"), S (r"LB")),
  (S (r"JORDAN"), S (r"JO")),
  (S (r"ISRAEL"), S (r"IL")),
  (S (r"PALESTINE"), S (r"PS")),
  (S (r"SAUDI ARABIA"), S (r"SA")),
  (S (r"UAE"), S (r"AE")),
  (S (r"UNITED ARAB EMIRATES"), S (r"AE")),
  (S (r"QATAR"), S (r"QA")),
  (S (r"KUWAIT"), S (r"KW")),
  (S (r"BAHRAIN"), S (r"BH")),
  (S (r"OMAN"), S (r"OM")),
  (S (r"YEMEN"), S (r"YE")),
  (S (r"EGYPT"), S (r"EG")),
  (S (r"LIBYA"), S (r"LY")),
  (S (r"TUNISIA"), S (r"TN")),
  (S (r"ALGERIA"), S (r"DZ")),
  (S (r"MOROCCO"), S (r"MA")),
  (S (r"SUDAN"), S (r"SD")),
  (S (r"SOUTH SUDAN"), S (r"SS")),
  (S (r"ETHIOPIA"), S (r"ET")),
  (S (r"ERITREA"), S (r"ER")),
  (S (r"DJIBOUTI"), S (r"DJ")),
  (S (r"SOMALIA"), S (r"SO")),
  (S (r"KENYA"), S (r"KE")),
  (S (r"UGANDA"), S (r"UG")),
  (S (r"TANZANIA"), S (r"TZ")),
  (S (r"RWANDA"), S (r"RW")),
  (S (r"BURUNDI"), S (r"BI")),
  (S (r"MALAWI"), S (r"MW")),
  (S (r"ZAMBIA"), S (r"ZM")),
  (S (r"ZIMBABWE"), S (r"ZW")),
  (S (r"BOTSWANA"), S (r"BW")),
  (S (r"NAMIBIA"), S (r"NA")),
  (S (r"SOUTH AFRICA"), S (r"ZA")),
  (S (r"ESWATINI"), S (r"SZ")),
  (S (r"LESOTHO"), S (r"LS")),
  (S (r"MADAGASCAR"), S (r"MG")),
  (S (r"MAURITIUS"), S (r"MU")),
  (S (r"SEYCHELLES"), S (r"SC")),
  (S (r"COMOROS"), S (r"KM")),
  (S (r"MOZAMBIQUE"), S (r"MZ")),
  (S (r"ANGOLA"), S (r"AO")),
  (S (r"CONGO"), S (r"CD")),
  (S (r"DEMOCRATIC REPUBLIC OF CONGO"), S (r"CD")),
  (S (r"REPUBLIC OF CONGO"), S (r"CG")),
  (S (r"CENTRAL AFRICAN REPUBLIC"), S (r"CF")),
  (S (r"CHAD"), S (r"TD")),
  (S (r"CAMEROON"), S (r"CM")),
  (S (r"EQUATORIAL GUINEA"), S (r"GQ")),
  (S (r"GABON"), S (r"GA")),
  (S (r"SAO TOME AND PRINCIPE"), S (r"ST")),
  (S (r"GHANA"), S (r"GH")),
  (S (r"TOGO"), S (r"TG")),
  (S (r"BENIN"), S (r"BJ")),
  (S (r"NIGER"), S (r"NE")),
  (S (r"BURKINA FASO"), S (r"BF")),
  (S (r"MALI"), S (r"ML")),
  (S (r"SENEGAL"), S (r"SN")),
  (S (r"GAMBIA"), S (r"GM")),
  (S (r"GUINEA-BISSAU"), S (r"GW")),
  (S (r"GUINEA"), S (r"GN")),
  (S (r"SIERRA LEONE"), S (r"SL")),
  (S (r"LIBERIA"), S (r"LR")),
  (S (r"IVORY COAST"), S (r"CI")),
  (S (r"COTE D") ++ [39] ++ S (r"IVOIRE"), S (r"CI")),
  (S (r"CANADA"), S (r"CA")),
  (S (r"MEXICO"), S (r"MX")),
  (S (r"GUATEMALA"), S (r"GT")),
  (S (r"BELIZE"), S (r"BZ")),
  (S (r"EL SALVADOR"), S (r"SV")),
  (S (r"HONDURAS"), S (r"HN")),
  (S (r"NICARAGUA"), S (r"NI")),
  (S (r"COSTA RICA"), S (r"CR")),
  (S (r"PANAMA"), S (r"PA")),
  (S (r"CUBA"), S (r"CU")),
  (S (r"JAMAICA"), S (r"JM")),
  (S (r"HAITI"), S (r"HT")),
  (S (r"DOMINICAN REPUBLIC"), S (r"DO")),
  (S (r"PUERTO RICO"), S (r"PR")),
  (S (r"TRINIDAD AND TOBAGO"), S (r"TT")),
  (S (r"BARBADOS"), S (r"BB")),
  (S (r"ANTIGUA AND BARBUDA"), S (r"AG")),
  (S (r"DOMINICA"), S (r"DM")),
  (S (r"GRENADA"), S (r"GD")),
  (S (r"SAINT KITTS AND NEVIS"), S (r"KN")),
  (S (r"SAINT LUCIA"), S (r"LC")),
  (S (r"SAINT VINCENT AND THE GRENADINES"), S (r"VC")),
  (S (r"BAHAMAS"), S (r"BS")),
  (S (r"ARGENTINA"), S (r"AR")),
  (S (r"BOLIVIA"), S (r"BO")),
  (S (r"BRAZIL"), S (r"BR")),
  (S (r"CHILE"), S (r"CL")),
  (S (r"COLOMBIA"), S (r"CO")),
  (S (r"ECUADOR"), S (r"EC")),
  (S (r"FALKLAND ISLANDS"), S (r"FK")),
  (S (r"FRENCH GUIANA"), S (r"GF")),
  (S (r"GUYANA"), S (r"GY")),
  (S (r"PARAGUAY"), S (r"PY")),
  (S (r"PERU"), S (r"PE")),
  (S (r"SURINAME"), S (r"SR")),
  (S (r"URUGUAY"), S (r"UY")),
  (S (r"VENEZUELA"), S (r"VE")),
  (S (r"AUSTRALIA"), S (r"AU")),
  (S (r"NEW ZEALAND"), S (r"NZ")),
  (S (r"FIJI"), S (r"FJ")),
  (S (r"PAPUA NEW GUINEA"), S (r"PG")),
  (S (r"SOLOMON ISLANDS"), S (r"SB")),
  (S (r"VANUATU"), S (r"VU")),
  (S (r"NEW CALEDONIA"), S (r"NC")),
  (S (r"FRENCH POLYNESIA"), S (r"PF")),
  (S (r"SAMOA"), S (r"WS")),
  (S (r"TONGA"), S (r"TO")),
  (S (r"KIRIBATI"), S (r"KI")),
  (S (r"TUVALU"), S (r"TV")),
  (S (r"NAURU"), S (r"NR")),
  (S (r"PALAU"), S (r"PW")),
  (S (r"MICRONESIA"), S (r"FM")),
  (S (r"MARSHALL ISLANDS"), S (r"MH")),
  (S (r"AMERICAN SAMOA"), S (r"AS")),
  (S (r"GUAM"), S (r"GU")),
  (S (r"NORTHERN MARIANA ISLANDS"), S (r"MP")),
  (S (r"US VIRGIN ISLANDS"), S (r"VI")),
  (S (r"BRITISH VIRGIN ISLANDS"), S (r"VG")),
  (S (r"ANGUILLA"), S (r"AI")),
  (S (r"ARUBA"), S (r"AW")),
  (S (r"BONAIRE"), S (r"BQ")),
  (S (r"CURACAO"), S (r"CW")),
  (S (r"SINT MAARTEN"), S (r"SX")),
  (S (r"SAINT BARTHELEMY"), S (r"BL")),
  (S (r"SAINT MARTIN"), S (r"MF")),
  (S (r"GUADELOUPE"), S (r"GP")),
  (S (r"MARTINIQUE"), S (r"MQ")),
  (S (r"REUNION"), S (r"RE")),
  (S (r"MAYOTTE"), S (r"YT")),
  (S (r"SAINT HELENA"), S (r"SH")),
  (S (r"ASCENSION ISLAND"), S (r"AC")),
  (S (r"TRISTAN DA CUNHA"), S (r"TA")),
  (S (r"SOUTH GEORGIA AND THE SOUTH SANDWICH ISLANDS"), S (r"GS")),
  (S (r"HEARD ISLAND AND MCDONALD ISLANDS"), S (r"HM")),
  (S (r"FRENCH SOUTHERN TERRITORIES"), S (r"TF")),
  (S (r"ANTARCTICA"), S (r"AQ")),
  (S (r"BOUVET ISLAND"), S (r"BV")),
  (S (r"SVALBARD AND JAN MAYEN"), S (r"SJ")),
  (S (r"GREENLAND"), S (r"GL")),
  (S (r"FAROE ISLANDS"), S (r"FO")),
  (S (r"ALAND ISLANDS"), S (r"AX")),
  (S (r"JERSEY"), S (r"JE")),
  (S (r"GUERNSEY"), S (r"GG")),
  (S (r"ISLE OF MAN"), S (r"IM")),
  (S (r"GIBRALTAR"), S (r"GI")),
  (S (r"ANDORRA"), S (r"AD")),
  (S (r"SAN MARINO"), S (r"SM")),
  (S (r"VATICAN"), S (r"VA")),
  (S (r"LIECHTENSTEIN"), S (r"LI")),
  (S (r"MONACO"), S (r"MC")),
  (S (r"MALTA"), S (r"MT")),
  (S (r"CYPRUS"), S (r"CY")),
  (S (r"TURKEY"), S (r"TR")),
  (S (r"RUSSIA"), S (r"RU")),
  (S (r"UKRAINE"), S (r"UA")),
  (S (r"BELARUS"), S (r"BY")),
  (S (r"MOLDOVA"), S (r"MD")),
  (S (r"ROMANIA"), S (r"RO")),
  (S (r"BULGARIA"), S (r"BG")),
  (S (r"ALBANIA"), S (r"AL")),
  (S (r"MONTENEGRO"), S (r"ME")),
  (S (r"SERBIA"), S (r"RS")),
  (S (r"BOSNIA AND HERZEGOVINA"), S (r"BA")),
  (S (r"CROATIA"), S (r"HR")),
  (S (r"SLOVENIA"), S (r"SI")),
  (S (r"SLOVAKIA"), S (r"SK")),
  (S (r"CZECH REPUBLIC"), S (r"CZ")),
  (S (r"CZECHIA"), S (r"CZ")),
  (S (r"HUNGARY"), S (r"HU")),
  (S (r"AUSTRIA"), S (r"AT")),
  (S (r"SWITZERLAND"), S (r"CH")),
  (S (r"LIECHTENSTEIN"), S (r"LI")),
  (S (r"GERMANY"), S (r"DE")),
  (S (r"LUXEMBOURG"), S (r"LU")),
  (S (r"BELGIUM"), S (r"BE")),
  (S (r"NETHERLANDS"), S (r"NL")),
  (S (r"DENMARK"), S (r"DK")),
  (S (r"SWEDEN"), S (r"SE")),
  (S (r"NORWAY"), S (r"NO")),
  (S (r"FINLAND"), S (r"FI")),
  (S (r"ICELAND"), S (r"IS")),
  (S (r"IRELAND"), S (r"IE")),
  (S (r"UNITED KINGDOM"), S (r"GB")),
  (S (r"FRANCE"), S (r"FR")),
  (S (r"SPAIN"), S (r"ES")),
  (S (r"PORTUGAL"), S (r"PT")),
  (S (r"ITALY"), S (r"IT"))]

/-- `AsyncTravelParser.normalize_country_code`.  Empty or blank input gives
`Unknown`; otherwise the stripped upper-cased input is looked up in the
alias table and, failing that, returned unchanged (the Python code's
2-letter-alphabetic test selects between two branches that both return
the input unchanged). -/
def normalize_country_code (c : Pstr) : Pstr :=
  if pyStrip c = [] then S (r"Unknown")
  else
    match countryMappings.lookup (pyUpper (pyStrip c)) with
    | some v => v
    | none =>
      if (pyUpper (pyStrip c)).length = 2 ∧ (pyUpper (pyStrip c)).all (fun n => isAlphaN n) then
        pyUpper (pyStrip c)
      else pyUpper (pyStrip c)

/-- One attempt of the regex `\s*\([^)]*\)` at the current position:
maximal whitespace, then a parenthesized run of non-`)` characters. -/
def tryParen (s : Pstr) : Option Pstr :=
  match s.dropWhile (fun c => isSpaceN c) with
  | 40 :: rest =>
    (match rest.dropWhile (fun c => c != 41) with
     | 41 :: rem => some rem
     | _ => none)
  | _ => none

/-- `re.sub(r'\s*\([^)]*\)', '', s)`: left-to-right scan replacing each
match by nothing.  Fuel is the string length, which bounds the number of
scan steps. -/
def subParensAux : Nat → Pstr → Pstr
  | 0, s => s
  | _ + 1, [] => []
  | fuel + 1, c :: rest =>
    match tryParen (c :: rest) with
    | some rem => subParensAux fuel rem
    | none => c :: subParensAux fuel rest

/-- The part of `s` before the first occurrence of the (nonempty)
separator `sep`, i.e. `s.split(sep)[0]`. -/
def takeBeforeSeq (sep : Pstr) : Pstr → Pstr
  | [] => []
  | c :: rest => if leadMatch sep (c :: rest) then [] else c :: takeBeforeSeq sep rest

/-- `s.split(c)[0]` for a one-character separator. -/
def takeBeforeChar (c : Nat) (s : Pstr) : Pstr := s.takeWhile (fun x => x != c)

/-- `AsyncTravelParser.extract_city_name`: drop parenthesized codes, cut at
`' - '` and at `','`, strip. -/
def extract_city_name (s : Pstr) : Pstr :=
  pyStrip (takeBeforeChar 44 (takeBeforeSeq (S (r" - ")) (subParensAux s.length s)))

/-- `AsyncTravelParser.calculate_days_between`: difference in days of two
`%Y-%m-%d` strings, `0` when either fails to parse. -/
def calculate_days_between (d1 d2 : Pstr) : Int :=
  match parseDate d1, parseDate d2 with
  | some a, some b => (b : Int) - (a : Int)
  | _, _ => 0

/-- A detected gap, with the fields built by `identify_gaps`. -/
structure Gap where
  gap_index : Nat
  gap_number : Nat
  current_arrival : Pstr
  current_arrival_country : Pstr
  current_arrival_date : Pstr
  next_departure : Pstr
  next_departure_country : Pstr
  next_departure_date : Pstr
  gap_period : Pstr
  days_between : Int
  gap_type : Pstr
  is_country_gap : Bool
deriving DecidableEq

/-- The gap dict `identify_gaps` appends for the adjacent pair
`(current, next_entry)` at index `i`, as gap number `cnt`. -/
def mkGap (i cnt : Nat) (current next_entry : Entry) : Gap :=
  let icg : Bool := pyLower current.arrival_country != pyLower next_entry.departure_country
  { gap_index := i
    gap_number := cnt
    current_arrival := extract_city_name current.arrival_city
    current_arrival_country := current.arrival_country
    current_arrival_date := current.arrival_date
    next_departure := extract_city_name next_entry.departure_city
    next_departure_country := next_entry.departure_country
    next_departure_date := next_entry.departure_date
    gap_period := current.arrival_date ++ S (r" to ") ++ next_entry.departure_date
    days_between := calculate_days_between current.arrival_date next_entry.departure_date
    gap_type := if icg then S (r"COUNTRY") else S (r"CITY")
    is_country_gap := icg }

/-- The scan of `identify_gaps` from index `i` with `cnt` gaps found so far. -/
def identifyGapsAux : List Entry → Nat → Nat → List Gap
  | [], _, _ => []
  | [_], _, _ => []
  | e1 :: e2 :: rest, i, cnt =>
    if pyLower (extract_city_name e1.arrival_city) ≠ pyLower (extract_city_name e2.departure_city) then
      mkGap i (cnt + 1) e1 e2 :: identifyGapsAux (e2 :: rest) (i + 1) (cnt + 1)
    else identifyGapsAux (e2 :: rest) (i + 1) cnt

/-- `AsyncTravelParser.identify_gaps` over the (already sorted) travel data. -/
def identify_gaps (td : List Entry) : List Gap := identifyGapsAux td 0 0

/-- `AsyncTravelParser.entry_connects_gap`: the gap's endpoints and the
candidate's cities contain one another (Python `in`, either direction),
case-insensitively. -/
def entry_connects_gap (entry : Entry) (gap : Gap) : Bool :=
  let current_arrival := pyLower gap.current_arrival
  let next_departure := pyLower gap.next_departure
  let entry_departure := pyLower entry.departure_city
  let entry_arrival := pyLower entry.arrival_city
  (strContains entry_departure current_arrival || strContains current_arrival entry_departure)
    && (strContains entry_arrival next_departure || strContains next_departure entry_arrival)

/-- The date-window test of `find_entries_for_gap`:
`gap_start - 7d <= entry_date <= gap_end + 7d`, with the two `timedelta`
computations raising `OverflowError` (entry skipped) when they leave the
`datetime` range; the upper bound is only computed when the lower bound
holds (Python's chained comparison short-circuits). -/
def withinWindow (gs ge d : Nat) : Bool :=
  if dateMinDay + 7 ≤ gs then
    if gs - 7 ≤ d then
      (if ge + 7 ≤ dateMaxDay then decide (d ≤ ge + 7) else false)
    else false
  else false

/-- `AsyncTravelParser.find_entries_for_gap`: entries whose parsed
departure date falls in the tolerant window and which connect the gap;
unparseable gap dates give the empty list, and an entry whose departure
date fails to parse is skipped. -/
def find_entries_for_gap (all_entries : List Entry) (gap : Gap) : List Entry :=
  match parseDate gap.current_arrival_date, parseDate gap.next_departure_date with
  | some gs, some ge =>
    all_entries.filter (fun entry =>
      match parseDate entry.departure_date with
      | some d => withinWindow gs ge d && entry_connects_gap entry gap
      | none => false)
  | _, _ => []

/-- Tag an entry as pre-existing (`entry_with_source['source_file'] = 'Original'`). -/
def tagOriginal (e : Entry) : Entry := { e with source_file := S (r"Original") }

/-- The inner scan of `generate_complete_table`: the first candidate (by
index, skipping used ones) whose city tokens exactly bridge
`current_arrival → next_departure` (both sides lower-cased). -/
def fillScan (used : List Nat) (ca nd : Pstr) : Nat → List Entry → Option (Nat × Entry)
  | _, [] => none
  | j, f :: rest =>
    if j ∈ used then fillScan used ca nd (j + 1) rest
    else if pyLower (extract_city_name f.departure_city) = ca
            ∧ pyLower (extract_city_name f.arrival_city) = nd then
      some (j, f)
    else fillScan used ca nd (j + 1) rest

/-- The main loop of `generate_complete_table`, returning the built table
together with the final set of used candidate indices. -/
def genAux (found : List Entry) : List Entry → List Nat → List Entry × List Nat
  | [], used => ([], used)
  | [e], used => ([tagOriginal e], used)
  | e :: nxt :: rest, used =>
    let ca := pyLower (extract_city_name e.arrival_city)
    let nd := pyLower (extract_city_name nxt.departure_city)
    match fillScan used ca nd 0 found with
    | some (j, fe) =>
      let r := genAux found (nxt :: rest) (j :: used)
      (tagOriginal e :: fe :: r.1, r.2)
    | none =>
      let r := genAux found (nxt :: rest) used
      (tagOriginal e :: r.1, r.2)

/-- `AsyncTravelParser.generate_complete_table` over travel data `td` and
found entries `found` (the code reads both from `self`). -/
def generate_complete_table (td found : List Entry) : List Entry := (genAux found td []).1

/-- An incongruent event (`multiple_departures` / `overlapping_times`
dicts; the human-readable `description` field, pure formatting, is not
modelled). -/
inductive IncEvent where
  | multiple_departures (city date : Pstr) (count : Nat) (entries : List Entry) : IncEvent
  | overlapping_times (city date time1 time2 : Pstr) (e1 e2 : Entry) : IncEvent
deriving DecidableEq

/-- The grouping key `f"{city}_{date}"` of `detect_incongruent_events`. -/
def joinKey (e : Entry) : Pstr := e.departure_city ++ 95 :: e.departure_date

/-- Append `e` to the bucket of key `k` (insertion-ordered dict update). -/
def addToGroups : List (Pstr × List Entry) → Pstr → Entry → List (Pstr × List Entry)
  | [], k, e => [(k, [e])]
  | (k', es) :: rest, k, e =>
    if k' = k then (k', es ++ [e]) :: rest else (k', es) :: addToGroups rest k e

/-- The `city_departures` dict, as an insertion-ordered association list. -/
def buildGroups (td : List Entry) : List (Pstr × List Entry) :=
  td.foldl (fun g e => addToGroups g (joinKey e) e) []

/-- `key.split('_', 1)`: the parts before and after the first underscore
(the key always contains one by construction). -/
def splitKey (k : Pstr) : Pstr × Pstr :=
  (takeBeforeChar 95 k, (k.dropWhile (fun c => c != 95)).drop 1)

/-- The `multiple_departures` events: one per group of size `> 1`, in
first-insertion order of the keys. -/
def multEvents (groups : List (Pstr × List Entry)) : List IncEvent :=
  groups.filterMap (fun g =>
    if 1 < g.2.length then
      some (IncEvent.multiple_departures (splitKey g.1).1 (splitKey g.1).2 g.2.length g.2)
    else none)

/-- `datetime.strptime(t, '%H:%M')` as minutes past midnight (`%H` takes
one or two digits `0..23`, `%M` one or two digits `0..59`). -/
def parseTimeHM (t : Pstr) : Option Nat :=
  match splitOnChar 58 t with
  | [hs, ms] =>
    if 1 ≤ hs.length ∧ hs.length ≤ 2 ∧ hs.all (fun c => isDigitN c)
       ∧ 1 ≤ ms.length ∧ ms.length ≤ 2 ∧ ms.all (fun c => isDigitN c) then
      let h := digitsVal hs
      let m := digitsVal ms
      if h ≤ 23 ∧ m ≤ 59 then some (h * 60 + m) else none
    else none
  | _ => none

/-- The overlapping-times test for an ordered pair: same raw departure
city and date, both times non-empty and parseable, and less than two
hours apart. -/
def overlapEvent (e1 e2 : Entry) : Option IncEvent :=
  if e1.departure_city = e2.departure_city ∧ e1.departure_date = e2.departure_date
     ∧ e1.departure_time ≠ [] ∧ e2.departure_time ≠ [] then
    match parseTimeHM e1.departure_time, parseTimeHM e2.departure_time with
    | some t1, some t2 =>
      if max t1 t2 - min t1 t2 < 120 then
        some (IncEvent.overlapping_times e1.departure_city e1.departure_date
          e1.departure_time e2.departure_time e1 e2)
      else none
    | _, _ => none
  else none

/-- The nested pair loop of `detect_incongruent_events` (`i < j` order). -/
def pairEvents : List Entry → List IncEvent
  | [] => []
  | e :: rest => rest.filterMap (fun e2 => overlapEvent e e2) ++ pairEvents rest

/-- `AsyncTravelParser.detect_incongruent_events`. -/
def detect_incongruent_events (td : List Entry) : List IncEvent :=
  multEvents (buildGroups td) ++ pairEvents td

/-- A CSV row as an insertion-ordered dict from column name to value. -/
abbrev Row := List (Pstr × Pstr)

/-- Python `row.get(k, '')`. -/
def dget (row : Row) (k : Pstr) : Pstr := (row.lookup k).getD []

/-- Python `row[k] = v` (overwrite, else append). -/
def dset : Row → Pstr → Pstr → Row
  | [], k, v => [(k, v)]
  | (k', v') :: rest, k, v =>
    if k' = k then (k, v) :: rest else (k', v') :: dset rest k v

/-- The column value `'✅'`. -/
def checkMark : Pstr := [9989]

/-- The column value `'❌'`. -/
def crossMark : Pstr := [10060]

/-- The column value `'N/A'`. -/
def naMark : Pstr := S (r"N/A")

/-- `x.lower() == y.lower() if x and y else False`. -/
def bothMatch (x y : Pstr) : Bool :=
  if x ≠ [] ∧ y ≠ [] then pyLower x = pyLower y else false

/-- Annotation of a non-final row by `add_connection_analysis`
(`add_connection_analysis.py`): compare this row's arrival country/city
with the next row's departure country/city. -/
def annotateRow (entry next_entry : Row) : Row :=
  let country_match := bothMatch (dget entry (S (r"arrival_country")))
    (dget next_entry (S (r"departure_country")))
  let city_match := bothMatch (dget entry (S (r"arrival_city")))
    (dget next_entry (S (r"departure_city")))
  dset (dset entry (S (r"next_country_match")) (if country_match then checkMark else crossMark))
    (S (r"next_city_match")) (if city_match then checkMark else crossMark)

/-- Annotation of the final row by `add_connection_analysis`
(`add_connection_analysis.py`). -/
def annotateLast (entry : Row) : Row :=
  dset (dset entry (S (r"next_country_match")) naMark) (S (r"next_city_match")) naMark

/-- The row loop of `add_connection_analysis` (each row is rewritten from
the original list, whose later rows are read unmodified). -/
def connAux : List Row → List Row
  | [] => []
  | [e] => [annotateLast e]
  | e :: nxt :: rest => annotateRow e nxt :: connAux (nxt :: rest)

/-- `add_connection_analysis` from `add_connection_analysis.py`: inputs of
fewer than two rows are returned unchanged. -/
def add_connection_analysis (data : List Row) : List Row :=
  if data.length < 2 then data else connAux data

/-- The first match of `re.search(r'\(([A-Z]{2})\)', s)`: the two capital
letters of the first exactly-two-capital parenthesized group. -/
def findCC : Pstr → Option Pstr
  | 40 :: a :: b :: 41 :: rest =>
    if (65 ≤ a && a ≤ 90) && (65 ≤ b && b ≤ 90) then some [a, b]
    else findCC (a :: b :: 41 :: rest)
  | _ :: rest => findCC rest
  | [] => none

/-- `AsyncTravelParser.extract_country`: the parenthesized 2-letter code,
or the full location; empty for blank or `'Unknown'` input. -/
def extract_country (location : Pstr) : Pstr :=
  if location = [] ∨ location = S (r"Unknown") then []
  else match findCC location with
    | some cc => cc
    | none => location

/-- One attempt of the regex `\s*\([A-Z]{2}\)` at the current position. -/
def tryParenCC (s : Pstr) : Option Pstr :=
  match s.dropWhile (fun c => isSpaceN c) with
  | 40 :: a :: b :: 41 :: rest =>
    if (65 ≤ a && a ≤ 90) && (65 ≤ b && b ≤ 90) then some rest else none
  | _ => none

/-- `re.sub(r'\s*\([A-Z]{2}\)', '', s)` (fuelled scan, as `subParensAux`). -/
def subCCAux : Nat → Pstr → Pstr
  | 0, s => s
  | _ + 1, [] => []
  | fuel + 1, c :: rest =>
    match tryParenCC (c :: rest) with
    | some rem => subCCAux fuel rem
    | none => c :: subCCAux fuel rest

/-- `AsyncTravelParser.extract_city`: strip 2-letter parenthesized codes;
empty for blank or `'Unknown'` input. -/
def extract_city (location : Pstr) : Pstr :=
  if location = [] ∨ location = S (r"Unknown") then []
  else pyStrip (subCCAux location.length location)

/-- Annotation of a non-final row by
`AsyncTravelParser.add_connection_analysis`: tokens are extracted from
this row's `arrival_city` and the next row's `departure_city`, and the
computed next-leg tokens are also recorded. -/
def parserAnnotateRow (entry next_entry : Row) : Row :=
  let current_country := extract_country (dget entry (S (r"arrival_city")))
  let current_city := extract_city (dget entry (S (r"arrival_city")))
  let next_country := extract_country (dget next_entry (S (r"departure_city")))
  let next_city := extract_city (dget next_entry (S (r"departure_city")))
  let country_match := bothMatch current_country next_country
  let city_match := bothMatch current_city next_city
  dset (dset (dset (dset entry
      (S (r"next_country_match")) (if country_match then checkMark else crossMark))
      (S (r"next_city_match")) (if city_match then checkMark else crossMark))
      (S (r"next_country")) (if next_country ≠ [] then next_country else S (r"Unknown")))
      (S (r"next_city")) (if next_city ≠ [] then next_city else S (r"Unknown"))

/-- Annotation of the final row by `AsyncTravelParser.add_connection_analysis`. -/
def parserAnnotateLast (entry : Row) : Row :=
  dset (dset (dset (dset entry
      (S (r"next_country_match")) naMark)
      (S (r"next_city_match")) naMark)
      (S (r"next_country")) naMark)
      (S (r"next_city")) naMark

/-- The row loop of `AsyncTravelParser.add_connection_analysis`. -/
def parserConnAux : List Row → List Row
  | [] => []
  | [e] => [parserAnnotateLast e]
  | e :: nxt :: rest => parserAnnotateRow e nxt :: parserConnAux (nxt :: rest)

/-- `AsyncTravelParser.add_connection_analysis`: inputs of fewer than two
rows are returned unchanged. -/
def parser_add_connection_analysis (data : List Row) : List Row :=
  if data.length < 2 then data else parserConnAux data

/-- A parsed email document (the fields the keyword filter reads). -/
structure EmailDoc where
  subject : Pstr
  sender : Pstr
  content : Pstr
deriving DecidableEq

/-- The keyword filter of `search_travel_emails_async`: some keyword is a
substring of the lower-cased subject, sender or content. -/
def matchesDoc (kws : List Pstr) (d : EmailDoc) : Bool :=
  kws.any (fun k => strContains (pyLower d.subject) k)
    || kws.any (fun k => strContains (pyLower d.sender) k)
    || kws.any (fun k => strContains (pyLower d.content) k)

/-- One batch of `process_email_batch`: parse failures (`none`) contribute
nothing, and the keyword filter keeps matching documents in order. -/
def filterBatch (kws : List Pstr) (batch : List (Option EmailDoc)) : List EmailDoc :=
  batch.filterMap (fun r =>
    match r with
    | none => none
    | some d => if matchesDoc kws d then some d else none)

/-- The batch loop of `search_travel_emails_async` with batch size
`bs + 1` (Python's `range` step must be positive): after appending each
filtered batch the loop stops when at least 1000 travel emails have been
collected.  The fuel argument only drives the structural recursion; every
step drops a non-empty batch, so `files.length + 1` is always enough. -/
def searchLoop (kws : List Pstr) (bs : Nat) : Nat → List (Option EmailDoc) → List EmailDoc → List EmailDoc
  | 0, _, acc => acc
  | _ + 1, [], acc => acc
  | fuel + 1, f :: files, acc =>
    let acc2 := acc ++ filterBatch kws ((f :: files).take (bs + 1))
    if 1000 ≤ acc2.length then acc2
    else searchLoop kws bs fuel ((f :: files).drop (bs + 1)) acc2

/-- The filtering stage of `AsyncTravelParser.search_travel_emails_async`
(parsed documents arrive in file order; `none` marks a document whose
parsing failed). -/
def search_travel_emails (kws : List Pstr) (bs : Nat)
    (files : List (Option EmailDoc)) : List EmailDoc :=
  searchLoop kws bs (files.length + 1) files []

/-- A JSON value (`json.loads` output).  Floating-point numbers, string
escapes and non-ASCII details are outside the model; every input used in
the theorems below stays inside the modelled fragment. -/
inductive JVal where
  | jnull : JVal
  | jbool : Bool → JVal
  | jnum : Int → JVal
  | jstr : Pstr → JVal
  | jarr : List JVal → JVal
  | jobj : List (Pstr × JVal) → JVal

/-- JSON whitespace. -/
def jskipWs (s : Pstr) : Pstr := s.dropWhile (fun c => c = 32 || c = 9 || c = 10 || c = 13)

/-- A JSON integer literal after an optional sign: digits without a
superfluous leading zero. -/
def parseJNat (s : Pstr) : Option (Nat × Pstr) :=
  let ds := s.takeWhile (fun c => isDigitN c)
  if ds = [] then none
  else if 1 < ds.length ∧ ds.headI = 48 then none
  else some (digitsVal ds, s.drop ds.length)

mutual

/-- Parse one JSON value at the head of `s` (no leading whitespace). -/
def parseJVal : Nat → Pstr → Option (JVal × Pstr)
  | 0, _ => none
  | fuel + 1, s =>
    match s with
    | 110 :: 117 :: 108 :: 108 :: rest => some (JVal.jnull, rest)
    | 116 :: 114 :: 117 :: 101 :: rest => some (JVal.jbool true, rest)
    | 102 :: 97 :: 108 :: 115 :: 101 :: rest => some (JVal.jbool false, rest)
    | 34 :: rest =>
      (let body := rest.takeWhile (fun c => c != 34 && c != 92)
       match rest.drop body.length with
       | 34 :: rest2 => some (JVal.jstr body, rest2)
       | _ => none)
    | 91 :: rest =>
      (match jskipWs rest with
       | 93 :: rest2 => some (JVal.jarr [], rest2)
       | t =>
         match parseJItems fuel t with
         | some (items, rest2) => some (JVal.jarr items, rest2)
         | none => none)
    | 123 :: rest =>
      (match jskipWs rest with
       | 125 :: rest2 => some (JVal.jobj [], rest2)
       | t =>
         match parseJMembers fuel t with
         | some (ms, rest2) => some (JVal.jobj ms, rest2)
         | none => none)
    | 45 :: rest =>
      (match parseJNat rest with
       | some (n, rest2) => some (JVal.jnum (-(n : Int)), rest2)
       | none => none)
    | c :: rest =>
      if isDigitN c then
        match parseJNat (c :: rest) with
        | some (n, rest2) => some (JVal.jnum (n : Int), rest2)
        | none => none
      else none
    | [] => none

/-- Parse the comma-separated items of a JSON array up to its `]`. -/
def parseJItems : Nat → Pstr → Option (List JVal × Pstr)
  | 0, _ => none
  | fuel + 1, s =>
    match parseJVal fuel s with
    | none => none
    | some (v, rest) =>
      match jskipWs rest with
      | 44 :: rest2 =>
        (match parseJItems fuel (jskipWs rest2) with
         | some (vs, rest3) => some (v :: vs, rest3)
         | none => none)
      | 93 :: rest2 => some ([v], rest2)
      | _ => none

/-- Parse the members of a JSON object up to its closing brace. -/
def parseJMembers : Nat → Pstr → Option (List (Pstr × JVal) × Pstr)
  | 0, _ => none
  | fuel + 1, s =>
    match s with
    | 34 :: rest =>
      (let key := rest.takeWhile (fun c => c != 34 && c != 92)
       match rest.drop key.length with
       | 34 :: rest2 =>
         (match jskipWs rest2 with
          | 58 :: rest3 =>
            (match parseJVal fuel (jskipWs rest3) with
             | some (v, rest4) =>
               (match jskipWs rest4 with
                | 44 :: rest5 =>
                  (match parseJMembers fuel (jskipWs rest5) with
                   | some (ms, rest6) => some ((key, v) :: ms, rest6)
                   | none => none)
                | 125 :: rest5 => some ([(key, v)], rest5)
                | _ => none)
             | none => none)
          | _ => none)
       | _ => none)
    | _ => none

end

/-- `json.loads`: parse one value, allowing surrounding whitespace and
requiring the whole input to be consumed. -/
def jsonLoads (s : Pstr) : Option JVal :=
  let t := jskipWs s
  match parseJVal (2 * t.length + 2) t with
  | some (v, rest) => if jskipWs rest = [] then some v else none
  | none => none

/-- `s.find(c)`: index of the first occurrence. -/
def idxOfChar : Pstr → Nat → Option Nat
  | [], _ => none
  | x :: xs, c => if x = c then some 0 else (idxOfChar xs c).map (· + 1)

/-- `s.rfind(c)`: index of the last occurrence. -/
def rIdxOfChar (s : Pstr) (c : Nat) : Option Nat :=
  match idxOfChar s.reverse c with
  | some k => some (s.length - 1 - k)
  | none => none

/-- The response-parsing step of
`AsyncTravelParser.analyze_email_batch_with_ai_async`: slice the response
from the first `'['` to the last `']'` inclusive, `json.loads` it, and
keep the result only when it is a list; every failure (no such slice,
decode error, non-list result) yields the empty candidate list. -/
def analyzeContent (content : Pstr) : List JVal :=
  match idxOfChar content 91, rIdxOfChar content 93 with
  | some s, some e =>
    if s < e + 1 then
      match jsonLoads ((content.drop s).take (e + 1 - s)) with
      | some (JVal.jarr l) => l
      | some _ => []
      | none => []
    else []
  | _, _ => []

/-- Modelled from the spec (§4.5 response parsing), for comparison with
`analyzeContent`: the end of the first balanced `[...]` span, scanning
with a bracket depth counter. -/
def balEnd : Pstr → Nat → Option Nat
  | [], _ => none
  | c :: rest, depth =>
    if c = 93 ∧ depth = 1 then some 0
    else (balEnd rest (if c = 91 then depth + 1 else if c = 93 then depth - 1 else depth)).map (· + 1)

/-- Modelled from the spec: the first balanced `[...]` span of the text. -/
def firstBalancedSpan (content : Pstr) : Option Pstr :=
  match idxOfChar content 91 with
  | none => none
  | some s =>
    match balEnd (content.drop s) 0 with
    | some e => some ((content.drop s).take (e + 1))
    | none => none

/-- Modelled from the spec: parse the first balanced `[...]` span as a
JSON array, with the empty candidate list on any failure. -/
def specAnalyze (content : Pstr) : List JVal :=
  match firstBalancedSpan content with
  | some span =>
    (match jsonLoads span with
     | some (JVal.jarr l) => l
     | _ => [])
  | none => []

/-- An entry with every field empty (a convenient base for examples). -/
def blankEntry : Entry :=
  { departure_country := [], departure_city := [], departure_date := [], departure_time := []
    arrival_country := [], arrival_city := [], arrival_date := [], arrival_time := []
    notes := [], source_file := [] }

/-- A concrete gap Bangkok → Kuala Lumpur (spec §8 round-trip example). -/
def exGap : Gap :=
  { gap_index := 0, gap_number := 1
    current_arrival := S (r"Bangkok"), current_arrival_country := S (r"TH")
    current_arrival_date := S (r"2023-02-06")
    next_departure := S (r"Kuala Lumpur"), next_departure_country := S (r"MY")
    next_departure_date := S (r"2023-03-10")
    gap_period := [], days_between := 32
    gap_type := S (r"COUNTRY"), is_country_gap := true }

/-- A candidate Bangkok → Kuala Lumpur leg dated inside the gap window. -/
def exCandidateIn : Entry :=
  { blankEntry with
    departure_city := S (r"Bangkok")
    arrival_city := S (r"Kuala Lumpur"), departure_date := S (r"2023-02-20") }

/-- The same candidate dated 30 days after the gap's end. -/
def exCandidateOut : Entry :=
  { blankEntry with
    departure_city := S (r"Bangkok")
    arrival_city := S (r"Kuala Lumpur"), departure_date := S (r"2023-04-09") }

/-- A candidate with empty departure and arrival cities. -/
def exEmptyCity : Entry := { blankEntry with departure_date := S (r"2023-02-20") }

/-- A trivially travel-relevant document. -/
def exDoc : EmailDoc := { subject := [120], sender := [], content := [] }

/-- A corpus of one unparseable file followed by 1049 relevant documents. -/
def exFiles : List (Option EmailDoc) := none :: List.replicate 1049 (some exDoc)

/-- A leg departing city `A_B` on date `C`. -/
def exU1 : Entry :=
  { blankEntry with departure_city := S (r"A_B"), departure_date := S (r"C") }

/-- A leg departing city `A` on date `B_C` (its join key collides with
`exU1`'s). -/
def exU2 : Entry :=
  { blankEntry with departure_city := S (r"A"), departure_date := S (r"B_C") }

/-- A London (LHR) departure at 18:25. -/
def exLon1 : Entry :=
  { blankEntry with
    departure_city := S (r"London (LHR)")
    departure_date := S (r"2023-01-01"), departure_time := S (r"18:25") }

/-- A London (LHR) departure at 19:30 on the same date. -/
def exLon2 : Entry :=
  { blankEntry with
    departure_city := S (r"London (LHR)")
    departure_date := S (r"2023-01-01"), departure_time := S (r"19:30") }

/-- A leg departing city `X` on date `D` (used three times over). -/
def exX : Entry :=
  { blankEntry with departure_city := S (r"X"), departure_date := S (r"D") }

/-- All ordered pairs `(l[i], l[j])` with `i < j`, in loop order. -/
def allPairs : List Entry → List (Entry × Entry)
  | [] => []
  | e :: rest => rest.map (fun e2 => (e, e2)) ++ allPairs rest

/-! ## Theorems -/

theorem entryLE_trans (a b c : Entry) : entryLE a b → entryLE b c → entryLE a c := by
  simp only [entryLE, decide_eq_true_eq]
  omega

theorem entryLE_total (a b : Entry) : entryLE a b || entryLE b a := by
  simp only [entryLE, Bool.or_eq_true, decide_eq_true_eq]
  omega

/-- C5: `sort_travel_data_chronologically` returns a permutation of its
input that is non-decreasing in the sort key (departure date and
time-or-midnight, with unparseable dates mapped to the 1900-01-01
sentinel instead of raising), and applying it twice equals applying it
once. -/
theorem claim_C5 (td : List Entry) :
    (sort_travel_data_chronologically td).Perm td
    ∧ (sort_travel_data_chronologically td).Pairwise
        (fun a b => get_sort_key a ≤ get_sort_key b)
    ∧ sort_travel_data_chronologically (sort_travel_data_chronologically td)
        = sort_travel_data_chronologically td
    ∧ (∀ e : Entry, parseDate e.departure_date = none →
        get_sort_key e = daysFromCivil 1900 1 1 * 1440) := by
  have hsorted := List.sorted_mergeSort entryLE_trans entryLE_total td
  refine ⟨List.mergeSort_perm td entryLE, ?_, ?_, ?_⟩
  · exact hsorted.imp (fun h => by simpa [entryLE] using h)
  · exact List.mergeSort_of_sorted hsorted
  · intro e he
    simp [get_sort_key, he]

/-- Witness for C5 at a concrete input: the blank entry's date fails to
parse and receives the sentinel key, and sorting the one-entry list is a
permutation of it. -/
theorem claim_C5_witness :
    get_sort_key blankEntry = daysFromCivil 1900 1 1 * 1440
    ∧ (sort_travel_data_chronologically [blankEntry]).Perm [blankEntry] :=
  ⟨(claim_C5 [blankEntry]).2.2.2 blankEntry (by decide), (claim_C5 [blankEntry]).1⟩

theorem upperN_upperN (n : Nat) : upperN (upperN n) = upperN n := by
  unfold upperN
  by_cases h : 97 ≤ n ∧ n ≤ 122
  · rw [if_pos h, if_neg (by omega)]
  · rw [if_neg h, if_neg h]

theorem isSpaceN_upperN (n : Nat) : isSpaceN (upperN n) = isSpaceN n := by
  unfold upperN
  by_cases h : 97 ≤ n ∧ n ≤ 122
  · rw [if_pos h]
    unfold isSpaceN
    rw [decide_eq_decide]
    omega
  · rw [if_neg h]

theorem isSpaceN_of_upper (n : Nat) (h1 : 65 ≤ n) : isSpaceN n = false := by
  unfold isSpaceN
  simp only [decide_eq_false_iff_not]
  omega

theorem pyUpper_idem (s : Pstr) : pyUpper (pyUpper s) = pyUpper s := by
  have h : upperN ∘ upperN = upperN := funext upperN_upperN
  simp [pyUpper, List.map_map, h]

theorem dropWhile_self_idem (p : Nat → Bool) (l : List Nat) :
    (l.dropWhile p).dropWhile p = l.dropWhile p := by
  cases h : l.dropWhile p with
  | nil => rfl
  | cons x xs =>
    have h0 := List.head?_dropWhile_not p l
    rw [h] at h0
    simp only [List.head?_cons] at h0
    rw [List.dropWhile_cons_of_neg (by simp [h0])]

theorem dropWhile_eq_self_of_none (p : Nat → Bool) (l : List Nat)
    (h : ∀ c ∈ l, p c = false) : l.dropWhile p = l := by
  cases l with
  | nil => rfl
  | cons x xs => rw [List.dropWhile_cons_of_neg (by simp [h x (by simp)])]

theorem pyStrip_of_no_space (s : Pstr) (h : ∀ c ∈ s, isSpaceN c = false) :
    pyStrip s = s := by
  unfold pyStrip
  rw [dropWhile_eq_self_of_none _ s h,
    dropWhile_eq_self_of_none _ s.reverse (by intro c hc; exact h c (by simpa using hc)),
    List.reverse_reverse]

theorem pyStrip_idem (s : Pstr) : pyStrip (pyStrip s) = pyStrip s := by
  unfold pyStrip
  have hBA : ((s.dropWhile fun c => isSpaceN c).reverse.dropWhile fun c => isSpaceN c).reverse
      <+: s.dropWhile fun c => isSpaceN c := by
    have hs : ((s.dropWhile fun c => isSpaceN c).reverse.dropWhile fun c => isSpaceN c)
        <:+ (s.dropWhile fun c => isSpaceN c).reverse := List.dropWhile_suffix _
    rw [← List.reverse_suffix]
    simpa using hs
  have hB : (((s.dropWhile fun c => isSpaceN c).reverse.dropWhile fun c => isSpaceN c).reverse).dropWhile
      (fun c => isSpaceN c)
      = ((s.dropWhile fun c => isSpaceN c).reverse.dropWhile fun c => isSpaceN c).reverse := by
    cases hc : ((s.dropWhile fun c => isSpaceN c).reverse.dropWhile fun c => isSpaceN c).reverse with
    | nil => rfl
    | cons x xs =>
      obtain ⟨t, ht⟩ := hBA
      rw [hc] at ht
      have h0 := List.head?_dropWhile_not (fun c => isSpaceN c) s
      rw [← ht] at h0
      simp only [List.cons_append, List.head?_cons] at h0
      rw [List.dropWhile_cons_of_neg (by simp [h0])]
  rw [hB, List.reverse_reverse, dropWhile_self_idem]

theorem pyStrip_pyUpper (s : Pstr) : pyStrip (pyUpper s) = pyUpper (pyStrip s) := by
  have hco : ((fun c => isSpaceN c) ∘ upperN) = (fun c => isSpaceN c) := by
    funext n
    simp only [Function.comp]
    exact isSpaceN_upperN n
  unfold pyStrip pyUpper
  rw [List.dropWhile_map, hco, ← List.map_reverse, List.dropWhile_map, hco, ← List.map_reverse]

theorem pyUpper_of_upper (v : Pstr) (h : ∀ c ∈ v, 65 ≤ c ∧ c ≤ 90) : pyUpper v = v := by
  unfold pyUpper
  have : List.map upperN v = List.map id v :=
    List.map_congr_left (fun a ha => by
      unfold upperN
      rw [if_neg (by have := h a ha; omega)]
      rfl)
  simpa using this

set_option maxRecDepth 40000 in
theorem countryVals_upper2 :
    countryMappings.all (fun p => decide (p.2.length = 2)
      && p.2.all (fun n => decide (65 ≤ n) && decide (n ≤ 90))
      && (p.2 != S (r"UK"))) = true := by decide

set_option maxRecDepth 40000 in
theorem countryKeys_UK_or_not2 :
    countryMappings.all (fun q => (q.1 == S (r"UK")) || (q.1.length != 2)) = true := by decide

theorem lookup_val_none (v : Pstr) (hlen : v.length = 2) (hUK : v ≠ S (r"UK")) :
    countryMappings.lookup v = none := by
  rw [List.lookup_eq_none_iff]
  intro p hp
  have hk := (List.all_eq_true.mp countryKeys_UK_or_not2) p hp
  simp only [Bool.or_eq_true, beq_iff_eq, bne_iff_ne, ne_eq] at hk
  rcases hk with hk | hk
  · simp only [bne_iff_ne, ne_eq]
    rw [hk]
    exact hUK
  · simp only [bne_iff_ne, ne_eq]
    intro he
    exact hk (by rw [← he, hlen])

theorem normalize_of_fixed (v : Pstr) (hne : v ≠ []) (hstrip : pyStrip v = v)
    (hupper : pyUpper v = v) (hlook : countryMappings.lookup v = none) :
    normalize_country_code v = v := by
  unfold normalize_country_code
  rw [hstrip, if_neg hne, hupper, hlook]
  exact ite_self v

theorem lookup_val_props (cc v : Pstr) (h : countryMappings.lookup cc = some v) :
    v.length = 2 ∧ (∀ c ∈ v, 65 ≤ c ∧ c ≤ 90) ∧ v ≠ S (r"UK") := by
  obtain ⟨l₁, l₂, hsplit, -⟩ := List.lookup_eq_some_iff.mp h
  have hmem : (cc, v) ∈ countryMappings := by
    rw [hsplit]
    simp
  have hv := (List.all_eq_true.mp countryVals_upper2) (cc, v) hmem
  simp only [Bool.and_eq_true, decide_eq_true_eq, List.all_eq_true, bne_iff_ne, ne_eq] at hv
  exact ⟨hv.1.1, fun c hc => ⟨(hv.1.2 c hc).1, (hv.1.2 c hc).2⟩, hv.2⟩

theorem normalize_fixes_value (cc v : Pstr) (h : countryMappings.lookup cc = some v) :
    normalize_country_code v = v := by
  obtain ⟨hlen, hrange, hUK⟩ := lookup_val_props cc v h
  refine normalize_of_fixed v ?_ ?_ ?_ ?_
  · intro he
    rw [he] at hlen
    simp at hlen
  · exact pyStrip_of_no_space v (fun c hc => isSpaceN_of_upper c (hrange c hc).1)
  · exact pyUpper_of_upper v hrange
  · exact lookup_val_none v hlen hUK

/-- C2 counterexample: normalization is not idempotent at the blank
input, since `normalize('') = 'Unknown'` but
`normalize('Unknown') = 'UNKNOWN'`. -/
theorem claim_C2_counterexample :
    normalize_country_code (normalize_country_code []) ≠ normalize_country_code [] := by
  decide

/-- C2 (amended): `normalize('UK') = 'GB'`, `normalize('United States') =
'US'`, `normalize('') = 'Unknown'`, `normalize('XX') = 'XX'`, and
normalization is idempotent on every input whose stripped value is
non-empty (the blank inputs are the only exception: they normalize to
`'Unknown'`, which re-normalizes to `'UNKNOWN'`). -/
theorem claim_C2 :
    normalize_country_code (S (r"UK")) = S (r"GB")
    ∧ normalize_country_code (S (r"United States")) = S (r"US")
    ∧ normalize_country_code [] = S (r"Unknown")
    ∧ normalize_country_code (S (r"XX")) = S (r"XX")
    ∧ ∀ x : Pstr, pyStrip x ≠ [] →
        normalize_country_code (normalize_country_code x) = normalize_country_code x := by
  refine ⟨by decide, by decide, by decide, by decide, ?_⟩
  intro x hx
  have hcc : pyStrip (pyUpper (pyStrip x)) = pyUpper (pyStrip x) := by
    rw [pyStrip_pyUpper, pyStrip_idem]
  have hccup : pyUpper (pyUpper (pyStrip x)) = pyUpper (pyStrip x) := pyUpper_idem _
  have hccne : pyUpper (pyStrip x) ≠ [] := by
    intro he
    exact hx (by simpa [pyUpper] using he)
  cases hlook : countryMappings.lookup (pyUpper (pyStrip x)) with
  | some v =>
    have hx1 : normalize_country_code x = v := by
      unfold normalize_country_code
      rw [if_neg hx, hlook]
    rw [hx1]
    exact normalize_fixes_value _ v hlook
  | none =>
    have hx1 : normalize_country_code x = pyUpper (pyStrip x) := by
      unfold normalize_country_code
      rw [if_neg hx, hlook]
      exact ite_self _
    rw [hx1]
    exact normalize_of_fixed _ hccne hcc hccup hlook

/-- Witness for C2 at a concrete input: idempotence at `'uk'`. -/
theorem claim_C2_witness :
    normalize_country_code (normalize_country_code (S (r"uk")))
      = normalize_country_code (S (r"uk")) :=
  claim_C2.2.2.2.2 (S (r"uk")) (by decide)

theorem gapsAux_index_lb (td : List Entry) :
    ∀ i c g, g ∈ identifyGapsAux td i c → i ≤ g.gap_index := by
  induction td with
  | nil => intro i c g h; simp [identifyGapsAux] at h
  | cons e1 rest ih =>
    intro i c g h
    cases rest with
    | nil => simp [identifyGapsAux] at h
    | cons e2 rest' =>
      simp only [identifyGapsAux] at h
      split at h
      · rcases List.mem_cons.mp h with hg | hg
        · rw [hg]; exact Nat.le_refl i
        · exact Nat.le_of_succ_le (ih (i + 1) (c + 1) g hg)
      · exact Nat.le_of_succ_le (ih (i + 1) c g h)

theorem gapsAux_mem (td : List Entry) :
    ∀ i c g, g ∈ identifyGapsAux td i c →
      ∃ j e1 e2, g.gap_index = i + j ∧ td.get? j = some e1 ∧ td.get? (j + 1) = some e2
        ∧ pyLower (extract_city_name e1.arrival_city)
            ≠ pyLower (extract_city_name e2.departure_city)
        ∧ g = mkGap (i + j) g.gap_number e1 e2 := by
  induction td with
  | nil => intro i c g h; simp [identifyGapsAux] at h
  | cons e1 rest ih =>
    intro i c g h
    cases rest with
    | nil => simp [identifyGapsAux] at h
    | cons e2 rest' =>
      simp only [identifyGapsAux] at h
      split at h
      · rename_i hd
        rcases List.mem_cons.mp h with hg | hg
        · refine ⟨0, e1, e2, ?_, rfl, rfl, hd, ?_⟩
          · rw [hg]; rfl
          · rw [hg]; rfl
        · obtain ⟨j, f1, f2, hidx, h1, h2, hdiff, heq⟩ := ih (i + 1) (c + 1) g hg
          exact ⟨j + 1, f1, f2, by omega, h1, h2, hdiff, by rw [heq]; congr 1; omega⟩
      · obtain ⟨j, f1, f2, hidx, h1, h2, hdiff, heq⟩ := ih (i + 1) c g h
        exact ⟨j + 1, f1, f2, by omega, h1, h2, hdiff, by rw [heq]; congr 1; omega⟩

theorem gapsAux_number (td : List Entry) :
    ∀ i c k g, (identifyGapsAux td i c).get? k = some g → g.gap_number = c + k + 1 := by
  induction td with
  | nil => intro i c k g h; simp [identifyGapsAux] at h
  | cons e1 rest ih =>
    intro i c k g h
    cases rest with
    | nil => simp [identifyGapsAux] at h
    | cons e2 rest' =>
      simp only [identifyGapsAux] at h
      split at h
      · cases k with
        | zero =>
          simp only [List.get?_cons_zero, Option.some.injEq] at h
          rw [← h]; rfl
        | succ k' =>
          simp only [List.get?_cons_succ] at h
          have := ih (i + 1) (c + 1) k' g h
          omega
      · exact ih (i + 1) c k g h

theorem gapsAux_exists (td : List Entry) :
    ∀ i c j e1 e2, td.get? j = some e1 → td.get? (j + 1) = some e2 →
      pyLower (extract_city_name e1.arrival_city)
        ≠ pyLower (extract_city_name e2.departure_city) →
      ∃ g ∈ identifyGapsAux td i c, g.gap_index = i + j := by
  induction td with
  | nil => intro i c j e1 e2 h1 _ _; simp at h1
  | cons f1 rest ih =>
    intro i c j e1 e2 h1 h2 hd
    cases rest with
    | nil =>
      cases j with
      | zero => simp at h2
      | succ j' => simp at h2
    | cons f2 rest' =>
      cases j with
      | zero =>
        simp only [List.get?_cons_zero, Option.some.injEq] at h1
        have h2' : f2 = e2 := by simpa using h2
        subst h1
        subst h2'
        simp only [identifyGapsAux]
        rw [if_pos hd]
        exact ⟨mkGap i (c + 1) f1 f2, List.mem_cons_self _ _, rfl⟩
      | succ j' =>
        simp only [List.get?_cons_succ] at h1 h2
        simp only [identifyGapsAux]
        split
        · obtain ⟨g, hg, hidx⟩ := ih (i + 1) (c + 1) j' e1 e2 h1 h2 hd
          exact ⟨g, List.mem_cons_of_mem _ hg, by omega⟩
        · obtain ⟨g, hg, hidx⟩ := ih (i + 1) c j' e1 e2 h1 h2 hd
          exact ⟨g, hg, by omega⟩

/-- C1: for every list of legs, `identify_gaps` emits a gap at adjacent
position `j` iff the extracted city tokens at the join differ
case-insensitively; every emitted gap records the pair's tokens and gets
severity `COUNTRY` exactly when the raw arrival/departure countries
differ case-insensitively (`CITY` otherwise); gaps are numbered `1, 2, …`
in scan order; and on two-leg lists the result is empty at a matching
join and a single fully-described gap otherwise. -/
theorem claim_C1 (td : List Entry) :
    (∀ j e1 e2, td.get? j = some e1 → td.get? (j + 1) = some e2 →
      ((∃ g ∈ identify_gaps td, g.gap_index = j) ↔
        pyLower (extract_city_name e1.arrival_city)
          ≠ pyLower (extract_city_name e2.departure_city)))
    ∧ (∀ g ∈ identify_gaps td, ∃ e1 e2,
        td.get? g.gap_index = some e1 ∧ td.get? (g.gap_index + 1) = some e2
        ∧ g.current_arrival = extract_city_name e1.arrival_city
        ∧ g.next_departure = extract_city_name e2.departure_city
        ∧ g.gap_type = (if pyLower e1.arrival_country = pyLower e2.departure_country
            then S (r"CITY") else S (r"COUNTRY"))
        ∧ g.is_country_gap
            = (pyLower e1.arrival_country != pyLower e2.departure_country))
    ∧ (∀ k g, (identify_gaps td).get? k = some g → g.gap_number = k + 1)
    ∧ (∀ e1 e2 : Entry,
        (pyLower (extract_city_name e1.arrival_city)
            = pyLower (extract_city_name e2.departure_city) →
          identify_gaps [e1, e2] = [])
        ∧ (pyLower (extract_city_name e1.arrival_city)
            ≠ pyLower (extract_city_name e2.departure_city) →
          ∃ g, identify_gaps [e1, e2] = [g]
            ∧ g.current_arrival = extract_city_name e1.arrival_city
            ∧ g.next_departure = extract_city_name e2.departure_city)) := by
  refine ⟨?_, ?_, ?_, ?_⟩
  · intro j e1 e2 h1 h2
    constructor
    · rintro ⟨g, hg, hidx⟩
      obtain ⟨j', f1, f2, hidx', hg1, hg2, hdiff, -⟩ := gapsAux_mem td 0 0 g hg
      have hjj : j = j' := by omega
      rw [hjj] at h1 h2
      rw [h1] at hg1
      rw [h2] at hg2
      cases hg1
      cases hg2
      exact hdiff
    · intro hd
      obtain ⟨g, hg, hidx⟩ := gapsAux_exists td 0 0 j e1 e2 h1 h2 hd
      exact ⟨g, hg, by omega⟩
  · intro g hg
    obtain ⟨j, e1, e2, hidx, h1, h2, hdiff, heq⟩ := gapsAux_mem td 0 0 g hg
    refine ⟨e1, e2, by rw [hidx]; simpa using h1, by rw [hidx]; simpa using h2, ?_, ?_, ?_, ?_⟩
    · rw [heq]; rfl
    · rw [heq]; rfl
    · rw [heq]
      show (if (pyLower e1.arrival_country != pyLower e2.departure_country) = true then _ else _) = _
      by_cases hc : pyLower e1.arrival_country = pyLower e2.departure_country
      · rw [if_neg (by simp [hc]), if_pos hc]
      · rw [if_pos (by simp [hc]), if_neg hc]
    · rw [heq]; rfl
  · intro k g h
    have := gapsAux_number td 0 0 k g h
    omega
  · intro e1 e2
    constructor
    · intro hm
      simp [identify_gaps, identifyGapsAux, hm]
    · intro hd
      refine ⟨mkGap 0 1 e1 e2, ?_, rfl, rfl⟩
      simp [identify_gaps, identifyGapsAux, hd]

/-- Witness for C1 at concrete legs: `[A→B, B→C]` yields no gap, and
`[A→B, C→D]` yields exactly one gap from `B` to `C`. -/
theorem claim_C1_witness :
    identify_gaps [{ blankEntry with arrival_city := S (r"B") },
      { blankEntry with departure_city := S (r"B") }] = []
    ∧ ∃ g, identify_gaps [{ blankEntry with arrival_city := S (r"B") },
        { blankEntry with departure_city := S (r"C") }] = [g]
        ∧ g.current_arrival = S (r"B") ∧ g.next_departure = S (r"C") := by
  constructor
  · exact ((claim_C1 []).2.2.2 _ _).1 (by decide)
  · obtain ⟨g, hg, h1, h2⟩ := ((claim_C1 []).2.2.2
      { blankEntry with arrival_city := S (r"B") }
      { blankEntry with departure_city := S (r"C") }).2 (by decide)
    exact ⟨g, hg, by rw [h1]; decide, by rw [h2]; decide⟩

theorem withinWindow_iff (gs ge d : Nat) (hlo : dateMinDay + 7 ≤ gs)
    (hhi : ge + 7 ≤ dateMaxDay) :
    withinWindow gs ge d = true ↔ (gs - 7 ≤ d ∧ d ≤ ge + 7) := by
  unfold withinWindow
  rw [if_pos (by omega)]
  by_cases h1 : gs - 7 ≤ d
  · rw [if_pos h1, if_pos hhi]
    simp [h1]
  · rw [if_neg h1]
    simp [h1]

/-- C4: for a gap whose endpoint dates parse (and whose 7-day tolerances
stay inside the `datetime` range), a candidate is returned by
`find_entries_for_gap` iff its departure date parses into
`[gap_start - 7d, gap_end + 7d]` and its lower-cased cities contain / are
contained in the gap's endpoint tokens; unparseable candidate dates are
skipped rather than failing, and any candidate dated after
`gap_end + 7d` (such as one 30 days out) is rejected. -/
theorem claim_C4 (all_entries : List Entry) (gap : Gap) (gs ge : Nat)
    (hgs : parseDate gap.current_arrival_date = some gs)
    (hge : parseDate gap.next_departure_date = some ge)
    (hlo : dateMinDay + 7 ≤ gs) (hhi : ge + 7 ≤ dateMaxDay) :
    (∀ e, e ∈ find_entries_for_gap all_entries gap ↔
      e ∈ all_entries ∧ ∃ d, parseDate e.departure_date = some d
        ∧ gs - 7 ≤ d ∧ d ≤ ge + 7
        ∧ ((strContains (pyLower e.departure_city) (pyLower gap.current_arrival)
             || strContains (pyLower gap.current_arrival) (pyLower e.departure_city))
           && (strContains (pyLower e.arrival_city) (pyLower gap.next_departure)
             || strContains (pyLower gap.next_departure) (pyLower e.arrival_city))) = true)
    ∧ (∀ e d, parseDate e.departure_date = some d → ge + 7 < d →
        e ∉ find_entries_for_gap all_entries gap)
    ∧ (∀ e, parseDate e.departure_date = none →
        e ∉ find_entries_for_gap all_entries gap) := by
  have hconn : ∀ e : Entry, entry_connects_gap e gap =
      ((strContains (pyLower e.departure_city) (pyLower gap.current_arrival)
         || strContains (pyLower gap.current_arrival) (pyLower e.departure_city))
       && (strContains (pyLower e.arrival_city) (pyLower gap.next_departure)
         || strContains (pyLower gap.next_departure) (pyLower e.arrival_city))) :=
    fun e => rfl
  have hfind : find_entries_for_gap all_entries gap =
      all_entries.filter (fun entry =>
        match parseDate entry.departure_date with
        | some d => withinWindow gs ge d && entry_connects_gap entry gap
        | none => false) := by
    unfold find_entries_for_gap
    rw [hgs, hge]
  refine ⟨?_, ?_, ?_⟩
  · intro e
    rw [hfind, List.mem_filter]
    constructor
    · rintro ⟨hmem, hp⟩
      refine ⟨hmem, ?_⟩
      cases hd : parseDate e.departure_date with
      | none => rw [hd] at hp; simp at hp
      | some d =>
        rw [hd] at hp
        simp only [Bool.and_eq_true] at hp
        have hw := (withinWindow_iff gs ge d hlo hhi).mp hp.1
        exact ⟨d, rfl, hw.1, hw.2, by rw [← hconn]; exact hp.2⟩
    · rintro ⟨hmem, d, hd, h1, h2, hc⟩
      refine ⟨hmem, ?_⟩
      rw [hd]
      simp only [Bool.and_eq_true]
      exact ⟨(withinWindow_iff gs ge d hlo hhi).mpr ⟨h1, h2⟩, by rw [hconn]; exact hc⟩
  · intro e d hd hgt hmem
    rw [hfind, List.mem_filter, hd] at hmem
    simp only [Bool.and_eq_true] at hmem
    have hw := (withinWindow_iff gs ge d hlo hhi).mp hmem.2.1
    omega
  · intro e hd hmem
    rw [hfind, List.mem_filter, hd] at hmem
    simp at hmem

/-- Witness for C4 at the Bangkok → Kuala Lumpur gap: the in-window
candidate is accepted and the candidate dated 30 days past the gap's end
is rejected. -/
theorem claim_C4_witness :
    exCandidateIn ∈ find_entries_for_gap [exCandidateIn, exCandidateOut] exGap
    ∧ exCandidateOut ∉ find_entries_for_gap [exCandidateIn, exCandidateOut] exGap := by
  have h := claim_C4 [exCandidateIn, exCandidateOut] exGap
    (daysFromCivil 2023 2 6) (daysFromCivil 2023 3 10)
    (by decide) (by decide) (by decide) (by decide)
  constructor
  · exact (h.1 exCandidateIn).mpr
      ⟨by simp, daysFromCivil 2023 2 20, by decide, by decide, by decide, by decide⟩
  · exact h.2.1 exCandidateOut (daysFromCivil 2023 4 9) (by decide) (by decide)

/-- C10: a candidate whose departure and arrival cities are both empty
passes `entry_connects_gap` for every gap (the empty string is a
substring of everything), so it is matched to any gap with parseable,
in-range endpoint dates whose tolerant window contains its parseable
departure date. -/
theorem strContains_nil (hay : Pstr) : strContains hay [] = true := by
  cases hay with
  | nil => rfl
  | cons c t => simp [strContains, leadMatch]

theorem claim_C10 (gap : Gap) (entry : Entry)
    (hdep : entry.departure_city = []) (harr : entry.arrival_city = []) :
    entry_connects_gap entry gap = true
    ∧ ∀ (all_entries : List Entry) (gs ge d : Nat),
        parseDate gap.current_arrival_date = some gs →
        parseDate gap.next_departure_date = some ge →
        dateMinDay + 7 ≤ gs → ge + 7 ≤ dateMaxDay →
        entry ∈ all_entries →
        parseDate entry.departure_date = some d →
        gs - 7 ≤ d → d ≤ ge + 7 →
        entry ∈ find_entries_for_gap all_entries gap := by
  have hconn : entry_connects_gap entry gap = true := by
    unfold entry_connects_gap
    rw [hdep, harr]
    simp [pyLower, strContains_nil]
  refine ⟨hconn, ?_⟩
  intro all_entries gs ge d hgs hge hlo hhi hmem hd h1 h2
  unfold find_entries_for_gap
  rw [hgs, hge, List.mem_filter]
  refine ⟨hmem, ?_⟩
  rw [hd]
  simp only [Bool.and_eq_true]
  exact ⟨(withinWindow_iff gs ge d hlo hhi).mpr ⟨h1, h2⟩, hconn⟩

/-- Witness for C10: the empty-city candidate connects and is matched to
the concrete Bangkok → Kuala Lumpur gap. -/
theorem claim_C10_witness :
    entry_connects_gap exEmptyCity exGap = true
    ∧ exEmptyCity ∈ find_entries_for_gap [exEmptyCity] exGap := by
  have h := claim_C10 exGap exEmptyCity (by decide) (by decide)
  exact ⟨h.1, h.2 [exEmptyCity] (daysFromCivil 2023 2 6) (daysFromCivil 2023 3 10)
    (daysFromCivil 2023 2 20) (by decide) (by decide) (by decide) (by decide)
    (by simp) (by decide) (by decide) (by decide)⟩

theorem fillScan_spec (used : List Nat) (ca nd : Pstr) :
    ∀ (found : List Entry) (j0 j : Nat) (fe : Entry),
      fillScan used ca nd j0 found = some (j, fe) →
      ∃ k, j = j0 + k ∧ found.get? k = some fe ∧ j ∉ used
        ∧ pyLower (extract_city_name fe.departure_city) = ca
        ∧ pyLower (extract_city_name fe.arrival_city) = nd
        ∧ ∀ k' fe', k' < k → found.get? k' = some fe' → j0 + k' ∉ used →
            ¬(pyLower (extract_city_name fe'.departure_city) = ca
              ∧ pyLower (extract_city_name fe'.arrival_city) = nd) := by
  intro found
  induction found with
  | nil => intro j0 j fe h; simp [fillScan] at h
  | cons f rest ih =>
    intro j0 j fe h
    by_cases hu : j0 ∈ used
    · rw [show fillScan used ca nd j0 (f :: rest) = fillScan used ca nd (j0 + 1) rest from
        by rw [fillScan, if_pos hu]] at h
      obtain ⟨k, hk, hget, hnu, h1, h2, hmin⟩ := ih (j0 + 1) j fe h
      refine ⟨k + 1, by omega, by simpa using hget, hnu, h1, h2, ?_⟩
      intro k' fe' hk' hget' hnu'
      cases k' with
      | zero => exact absurd hu (by simpa using hnu')
      | succ k'' =>
        refine hmin k'' fe' (by omega) (by simpa using hget') ?_
        rw [show j0 + 1 + k'' = j0 + (k'' + 1) from by omega]
        exact hnu'
    · by_cases hm : pyLower (extract_city_name f.departure_city) = ca
          ∧ pyLower (extract_city_name f.arrival_city) = nd
      · rw [show fillScan used ca nd j0 (f :: rest) = some (j0, f) from
          by rw [fillScan, if_neg hu, if_pos hm]] at h
        obtain ⟨hj, hfe⟩ := Prod.mk.injEq .. ▸ Option.some.inj h
        refine ⟨0, by omega, by rw [← hfe]; rfl, by rw [← hj]; exact hu,
          by rw [← hfe]; exact hm.1, by rw [← hfe]; exact hm.2, ?_⟩
        intro k' fe' hk'
        omega
      · rw [show fillScan used ca nd j0 (f :: rest) = fillScan used ca nd (j0 + 1) rest from
          by rw [fillScan, if_neg hu, if_neg hm]] at h
        obtain ⟨k, hk, hget, hnu, h1, h2, hmin⟩ := ih (j0 + 1) j fe h
        refine ⟨k + 1, by omega, by simpa using hget, hnu, h1, h2, ?_⟩
        intro k' fe' hk' hget' hnu'
        cases k' with
        | zero =>
          simp only [List.get?_cons_zero, Option.some.injEq] at hget'
          rw [← hget']
          exact hm
        | succ k'' =>
          refine hmin k'' fe' (by omega) (by simpa using hget') ?_
          rw [show j0 + 1 + k'' = j0 + (k'' + 1) from by omega]
          exact hnu'

theorem genAux_sublist (found : List Entry) :
    ∀ (td : List Entry) (used : List Nat),
      (td.map tagOriginal).Sublist (genAux found td used).1 := by
  intro td
  induction td with
  | nil => intro used; simp [genAux]
  | cons e rest ih =>
    intro used
    cases rest with
    | nil => simp [genAux]
    | cons nxt rest' =>
      simp only [genAux]
      cases hf : fillScan used (pyLower (extract_city_name e.arrival_city))
          (pyLower (extract_city_name nxt.departure_city)) 0 found with
      | none =>
        simp only [List.map_cons]
        exact List.Sublist.cons₂ _ (ih used)
      | some p =>
        simp only [List.map_cons]
        exact List.Sublist.cons₂ _ (List.Sublist.cons _ (ih (p.1 :: used)))

theorem genAux_used (found : List Entry) :
    ∀ td used, ∃ s, (genAux found td used).2 = s ++ used := by
  intro td
  induction td with
  | nil => intro used; exact ⟨[], rfl⟩
  | cons e rest ih =>
    intro used
    cases rest with
    | nil => exact ⟨[], rfl⟩
    | cons nxt rest' =>
      simp only [genAux]
      cases hf : fillScan used (pyLower (extract_city_name e.arrival_city))
          (pyLower (extract_city_name nxt.departure_city)) 0 found with
      | none => exact ih used
      | some p =>
        obtain ⟨s, hs⟩ := ih (p.1 :: used)
        exact ⟨s ++ [p.1], by rw [hs]; simp⟩

theorem genAux_nodup (found : List Entry) :
    ∀ td used, used.Nodup → (genAux found td used).2.Nodup := by
  intro td
  induction td with
  | nil => intro used h; exact h
  | cons e rest ih =>
    intro used h
    cases rest with
    | nil => exact h
    | cons nxt rest' =>
      simp only [genAux]
      cases hf : fillScan used (pyLower (extract_city_name e.arrival_city))
          (pyLower (extract_city_name nxt.departure_city)) 0 found with
      | none => exact ih used h
      | some p =>
        obtain ⟨k, -, -, hnu, -, -, -⟩ := fillScan_spec used _ _ found 0 p.1 p.2 (by rw [hf])
        exact ih (p.1 :: used) (List.nodup_cons.mpr ⟨hnu, h⟩)

theorem genAux_mem (found : List Entry) :
    ∀ (td : List Entry) (used : List Nat) (e : Entry), e ∈ (genAux found td used).1 →
      e ∈ td.map tagOriginal ∨ ∃ j ∈ (genAux found td used).2, found.get? j = some e := by
  intro td
  induction td with
  | nil => intro used e h; simp [genAux] at h
  | cons e0 rest ih =>
    intro used e h
    cases rest with
    | nil =>
      simp only [genAux, List.mem_singleton] at h
      exact Or.inl (by simp [h])
    | cons nxt rest' =>
      simp only [genAux] at h ⊢
      cases hf : fillScan used (pyLower (extract_city_name e0.arrival_city))
          (pyLower (extract_city_name nxt.departure_city)) 0 found with
      | none =>
        rw [hf] at h
        simp only [List.mem_cons] at h
        rcases h with h | h
        · exact Or.inl (by simp [h])
        · rcases ih used e h with h' | h'
          · exact Or.inl (by rw [List.map_cons]; exact List.mem_cons_of_mem _ h')
          · exact Or.inr h'
      | some p =>
        rw [hf] at h
        simp only [List.mem_cons] at h
        obtain ⟨k, hk0, hget, -, -, -, -⟩ :=
          fillScan_spec used _ _ found 0 p.1 p.2 (by rw [hf])
        rcases h with h | h | h
        · exact Or.inl (by simp [h])
        · refine Or.inr ⟨p.1, ?_, by rw [h, show p.1 = k from by omega]; exact hget⟩
          obtain ⟨s, hs⟩ := genAux_used found (nxt :: rest') (p.1 :: used)
          rw [hs]
          simp
        · rcases ih (p.1 :: used) e h with h' | h'
          · exact Or.inl (by rw [List.map_cons]; exact List.mem_cons_of_mem _ h')
          · exact Or.inr h'

/-- C3: during `generate_complete_table`, every original leg appears in
the output tagged `source_file = 'Original'` (in order); the set of
consumed candidate indices has no duplicates, so a single candidate is
spliced in at most once even if it matches the token criteria at two
positions; the inner scan picks exactly the first not-yet-used candidate
whose lower-cased city tokens equal the current arrival and next
departure tokens; and every output row is either a tagged original or a
consumed candidate. -/
theorem claim_C3 (td found : List Entry) :
    (td.map tagOriginal).Sublist (generate_complete_table td found)
    ∧ (genAux found td []).2.Nodup
    ∧ (∀ used ca nd j fe, fillScan used ca nd 0 found = some (j, fe) →
        found.get? j = some fe ∧ j ∉ used
        ∧ pyLower (extract_city_name fe.departure_city) = ca
        ∧ pyLower (extract_city_name fe.arrival_city) = nd
        ∧ ∀ k fe', k < j → found.get? k = some fe' → k ∉ used →
            ¬(pyLower (extract_city_name fe'.departure_city) = ca
              ∧ pyLower (extract_city_name fe'.arrival_city) = nd))
    ∧ (∀ e ∈ generate_complete_table td found,
        e ∈ td.map tagOriginal ∨ ∃ j ∈ (genAux found td []).2, found.get? j = some e) := by
  refine ⟨genAux_sublist found td [], genAux_nodup found td [] List.nodup_nil, ?_,
    genAux_mem found td []⟩
  intro used ca nd j fe h
  obtain ⟨k, hk0, hget, hnu, h1, h2, hmin⟩ := fillScan_spec used ca nd found 0 j fe h
  have hjk : j = k := by omega
  refine ⟨by rw [hjk]; exact hget, hnu, h1, h2, ?_⟩
  intro k' fe' hk' hget' hnu'
  exact hmin k' fe' (by omega) hget' (by simpa using hnu')

/-- Witness for C3 at concrete legs `[A→B, C→D]` and one candidate
`B→C`: the originals appear tagged in order, the consumed indices are
duplicate-free, and the scan returns candidate 0 as the first unused
match. -/
theorem claim_C3_witness :
    ([{ blankEntry with departure_city := S (r"A"), arrival_city := S (r"B") },
      { blankEntry with departure_city := S (r"C"), arrival_city := S (r"D") }].map
        tagOriginal).Sublist
      (generate_complete_table
        [{ blankEntry with departure_city := S (r"A"), arrival_city := S (r"B") },
         { blankEntry with departure_city := S (r"C"), arrival_city := S (r"D") }]
        [{ blankEntry with departure_city := S (r"B"), arrival_city := S (r"C") }])
    ∧ (genAux [{ blankEntry with departure_city := S (r"B"), arrival_city := S (r"C") }]
        [{ blankEntry with departure_city := S (r"A"), arrival_city := S (r"B") },
         { blankEntry with departure_city := S (r"C"), arrival_city := S (r"D") }] []).2.Nodup
    ∧ [{ blankEntry with departure_city := S (r"B"), arrival_city := S (r"C") }].get? 0
        = some { blankEntry with departure_city := S (r"B"), arrival_city := S (r"C") } := by
  have h := claim_C3
    [{ blankEntry with departure_city := S (r"A"), arrival_city := S (r"B") },
     { blankEntry with departure_city := S (r"C"), arrival_city := S (r"D") }]
    [{ blankEntry with departure_city := S (r"B"), arrival_city := S (r"C") }]
  refine ⟨h.1, h.2.1, ?_⟩
  exact (h.2.2.1 [] (S (r"b")) (S (r"c")) 0
    { blankEntry with departure_city := S (r"B"), arrival_city := S (r"C") } (by decide)).1

theorem filterBatch_matches (kws : List Pstr) (batch : List (Option EmailDoc)) :
    ∀ d ∈ filterBatch kws batch, matchesDoc kws d = true := by
  intro d hd
  obtain ⟨r, -, hr⟩ := List.mem_filterMap.mp hd
  cases r with
  | none => simp at hr
  | some d' =>
    simp only at hr
    split at hr
    · rename_i hm
      cases hr
      exact hm
    · simp at hr

theorem filterBatch_length_le (kws : List Pstr) (batch : List (Option EmailDoc)) :
    (filterBatch kws batch).length ≤ batch.length :=
  List.length_filterMap_le _ _

theorem searchLoop_bound (kws : List Pstr) (bs : Nat) :
    ∀ (fuel : Nat) (files : List (Option EmailDoc)) (acc : List EmailDoc),
      acc.length ≤ 999 → (∀ d ∈ acc, matchesDoc kws d = true) →
      (searchLoop kws bs fuel files acc).length ≤ 999 + (bs + 1)
      ∧ ∀ d ∈ searchLoop kws bs fuel files acc, matchesDoc kws d = true := by
  intro fuel
  induction fuel with
  | zero =>
    intro files acc hlen hmem
    exact ⟨by simp only [searchLoop]; omega, by simp only [searchLoop]; exact hmem⟩
  | succ fuel ih =>
    intro files acc hlen hmem
    cases files with
    | nil => exact ⟨by simp only [searchLoop]; omega, by simp only [searchLoop]; exact hmem⟩
    | cons f rest =>
      simp only [searchLoop]
      have hfb : (filterBatch kws ((f :: rest).take (bs + 1))).length ≤ bs + 1 := by
        calc (filterBatch kws ((f :: rest).take (bs + 1))).length
            ≤ ((f :: rest).take (bs + 1)).length := filterBatch_length_le _ _
          _ ≤ bs + 1 := by simp [List.length_take]
      have hmem2 : ∀ d ∈ acc ++ filterBatch kws ((f :: rest).take (bs + 1)),
          matchesDoc kws d = true := by
        intro d hd
        rcases List.mem_append.mp hd with hd | hd
        · exact hmem d hd
        · exact filterBatch_matches kws _ d hd
      split
      · constructor
        · simp only [List.length_append]
          omega
        · exact hmem2
      · rename_i hstop
        refine ih ((f :: rest).drop (bs + 1)) _ ?_ hmem2
        simp only [List.length_append] at hstop ⊢
        omega

set_option maxRecDepth 200000 in
/-- C6 counterexample: a corpus of one unparseable file followed by 1049
matching documents (batch size 50) yields a filtered list of 1049
entries — more than 1000 — because the cap is only checked after a whole
batch has been appended. -/
theorem claim_C6_counterexample :
    1000 < (search_travel_emails [[120]] 49 exFiles).length := by decide

/-- C6 (amended): the filtering stage keeps only documents matching the
keyword filter and stops after the first batch that brings the total to
at least 1000, so the returned list never exceeds `999 + batch_size`
entries (1049 at the default batch size 50); it can exceed 1000 by up to
`batch_size - 1`. -/
theorem claim_C6 (kws : List Pstr) (bs : Nat) (files : List (Option EmailDoc)) :
    (search_travel_emails kws bs files).length ≤ 999 + (bs + 1)
    ∧ ∀ d ∈ search_travel_emails kws bs files, matchesDoc kws d = true := by
  unfold search_travel_emails
  exact searchLoop_bound kws bs (files.length + 1) files [] (by simp) (by simp)

set_option maxRecDepth 200000 in
/-- Witness for C6: at the default batch size the bound instantiates to
1049 on the concrete corpus. -/
theorem claim_C6_witness :
    (search_travel_emails [[120]] 49 exFiles).length ≤ 999 + 50 :=
  (claim_C6 [[120]] 49 exFiles).1

theorem dget_dset_self (r : Row) (k v : Pstr) : dget (dset r k v) k = v := by
  induction r with
  | nil => simp [dset, dget, List.lookup]
  | cons p rest ih =>
    obtain ⟨k', v'⟩ := p
    by_cases h : k' = k
    · simp [dset, h, dget, List.lookup]
    · simp only [dset, if_neg h]
      rw [dget, List.lookup]
      rw [show (k == k') = false from beq_eq_false_iff_ne.mpr (Ne.symm h)]
      exact ih

theorem dget_dset_other (r : Row) (k k2 v : Pstr) (h : k ≠ k2) :
    dget (dset r k2 v) k = dget r k := by
  induction r with
  | nil =>
    rw [dset, dget, List.lookup]
    rw [show (k == k2) = false from beq_eq_false_iff_ne.mpr h]
    rfl
  | cons p rest ih =>
    obtain ⟨k', v'⟩ := p
    by_cases hk : k' = k2
    · simp only [dset, if_pos hk]
      rw [dget, List.lookup, show (k == k2) = false from beq_eq_false_iff_ne.mpr h]
      rw [dget, List.lookup, hk, show (k == k2) = false from beq_eq_false_iff_ne.mpr h]
    · simp only [dset, if_neg hk]
      rw [dget, List.lookup]
      rw [dget, List.lookup]
      cases hkk : k == k'
      · exact ih
      · rfl

theorem connAux_length : ∀ data : List Row, (connAux data).length = data.length := by
  intro data
  induction data with
  | nil => rfl
  | cons e rest ih =>
    cases rest with
    | nil => rfl
    | cons nxt rest' => simpa [connAux] using ih

theorem parserConnAux_length : ∀ data : List Row, (parserConnAux data).length = data.length := by
  intro data
  induction data with
  | nil => rfl
  | cons e rest ih =>
    cases rest with
    | nil => rfl
    | cons nxt rest' => simpa [parserConnAux] using ih

theorem annotateRow_cols (e nxt : Row) :
    (dget (annotateRow e nxt) (S (r"next_country_match")) = checkMark
      ∨ dget (annotateRow e nxt) (S (r"next_country_match")) = crossMark)
    ∧ (dget (annotateRow e nxt) (S (r"next_city_match")) = checkMark
      ∨ dget (annotateRow e nxt) (S (r"next_city_match")) = crossMark) := by
  unfold annotateRow
  constructor
  · rw [dget_dset_other _ _ _ _ (by decide), dget_dset_self]
    split
    · exact Or.inl rfl
    · exact Or.inr rfl
  · rw [dget_dset_self]
    split
    · exact Or.inl rfl
    · exact Or.inr rfl

theorem annotateLast_cols (e : Row) :
    dget (annotateLast e) (S (r"next_country_match")) = naMark
    ∧ dget (annotateLast e) (S (r"next_city_match")) = naMark := by
  unfold annotateLast
  exact ⟨by rw [dget_dset_other _ _ _ _ (by decide), dget_dset_self],
    by rw [dget_dset_self]⟩

theorem parserAnnotateRow_cols (e nxt : Row) :
    (dget (parserAnnotateRow e nxt) (S (r"next_country_match")) = checkMark
      ∨ dget (parserAnnotateRow e nxt) (S (r"next_country_match")) = crossMark)
    ∧ (dget (parserAnnotateRow e nxt) (S (r"next_city_match")) = checkMark
      ∨ dget (parserAnnotateRow e nxt) (S (r"next_city_match")) = crossMark) := by
  unfold parserAnnotateRow
  constructor
  · rw [dget_dset_other _ _ _ _ (by decide), dget_dset_other _ _ _ _ (by decide),
      dget_dset_other _ _ _ _ (by decide), dget_dset_self]
    split
    · exact Or.inl rfl
    · exact Or.inr rfl
  · rw [dget_dset_other _ _ _ _ (by decide), dget_dset_other _ _ _ _ (by decide),
      dget_dset_self]
    split
    · exact Or.inl rfl
    · exact Or.inr rfl

theorem parserAnnotateLast_cols (e : Row) :
    dget (parserAnnotateLast e) (S (r"next_country_match")) = naMark
    ∧ dget (parserAnnotateLast e) (S (r"next_city_match")) = naMark := by
  unfold parserAnnotateLast
  exact ⟨by rw [dget_dset_other _ _ _ _ (by decide), dget_dset_other _ _ _ _ (by decide),
      dget_dset_other _ _ _ _ (by decide), dget_dset_self],
    by rw [dget_dset_other _ _ _ _ (by decide), dget_dset_other _ _ _ _ (by decide),
      dget_dset_self]⟩

theorem connAux_get : ∀ (data : List Row) (i : Nat) (row : Row),
    (connAux data).get? i = some row →
    (i + 1 < data.length → ∃ e nxt, data.get? i = some e ∧ data.get? (i + 1) = some nxt
      ∧ row = annotateRow e nxt)
    ∧ (i + 1 = data.length → ∃ e, data.get? i = some e ∧ row = annotateLast e) := by
  intro data
  induction data with
  | nil => intro i row h; simp [connAux] at h
  | cons e rest ih =>
    intro i row h
    cases rest with
    | nil =>
      cases i with
      | zero =>
        simp only [connAux, List.get?_cons_zero, Option.some.injEq] at h
        exact ⟨by intro hlt; simp at hlt, fun _ => ⟨e, rfl, h.symm⟩⟩
      | succ i' => simp [connAux] at h
    | cons nxt rest' =>
      cases i with
      | zero =>
        simp only [connAux, List.get?_cons_zero, Option.some.injEq] at h
        refine ⟨fun _ => ⟨e, nxt, rfl, rfl, h.symm⟩, fun habs => ?_⟩
        simp only [List.length_cons] at habs
        omega
      | succ i' =>
        simp only [connAux, List.get?_cons_succ] at h
        obtain ⟨h1, h2⟩ := ih i' row h
        refine ⟨fun hlt => ?_, fun heq => ?_⟩
        · obtain ⟨a, b, ha, hb, hr⟩ := h1 (by simp only [List.length_cons] at hlt ⊢; omega)
          exact ⟨a, b, by simpa using ha, by simpa using hb, hr⟩
        · obtain ⟨a, ha, hr⟩ := h2 (by simp only [List.length_cons] at heq ⊢; omega)
          exact ⟨a, by simpa using ha, hr⟩

theorem parserConnAux_get : ∀ (data : List Row) (i : Nat) (row : Row),
    (parserConnAux data).get? i = some row →
    (i + 1 < data.length → ∃ e nxt, data.get? i = some e ∧ data.get? (i + 1) = some nxt
      ∧ row = parserAnnotateRow e nxt)
    ∧ (i + 1 = data.length → ∃ e, data.get? i = some e ∧ row = parserAnnotateLast e) := by
  intro data
  induction data with
  | nil => intro i row h; simp [parserConnAux] at h
  | cons e rest ih =>
    intro i row h
    cases rest with
    | nil =>
      cases i with
      | zero =>
        simp only [parserConnAux, List.get?_cons_zero, Option.some.injEq] at h
        exact ⟨by intro hlt; simp at hlt, fun _ => ⟨e, rfl, h.symm⟩⟩
      | succ i' => simp [parserConnAux] at h
    | cons nxt rest' =>
      cases i with
      | zero =>
        simp only [parserConnAux, List.get?_cons_zero, Option.some.injEq] at h
        refine ⟨fun _ => ⟨e, nxt, rfl, rfl, h.symm⟩, fun habs => ?_⟩
        simp only [List.length_cons] at habs
        omega
      | succ i' =>
        simp only [parserConnAux, List.get?_cons_succ] at h
        obtain ⟨h1, h2⟩ := ih i' row h
        refine ⟨fun hlt => ?_, fun heq => ?_⟩
        · obtain ⟨a, b, ha, hb, hr⟩ := h1 (by simp only [List.length_cons] at hlt ⊢; omega)
          exact ⟨a, b, by simpa using ha, by simpa using hb, hr⟩
        · obtain ⟨a, ha, hr⟩ := h2 (by simp only [List.length_cons] at heq ⊢; omega)
          exact ⟨a, by simpa using ha, hr⟩

/-- C9 counterexample: on a single-row input both connection-analysis
functions return the data unchanged, so the final (only) row never
receives the `next_country_match`/`next_city_match` columns, let alone
`N/A` values. -/
theorem claim_C9_counterexample :
    add_connection_analysis [[]] = [[]]
    ∧ parser_add_connection_analysis [[]] = [[]]
    ∧ (([] : Row).lookup (S (r"next_country_match"))) = none
    ∧ (([] : Row).lookup (S (r"next_city_match"))) = none := by
  exact ⟨rfl, rfl, rfl, rfl⟩

/-- C9 (amended): for every input of at least two rows, both
connection-analysis functions return one output row per input row, give
every non-final row `next_country_match` and `next_city_match` values of
`✅` or `❌`, and give exactly the final row the value `N/A` in both
columns; inputs of fewer than two rows are returned unchanged, without
the columns. -/
theorem claim_C9 (data : List Row) (h2 : 2 ≤ data.length) :
    ((add_connection_analysis data).length = data.length
      ∧ ∀ i row, (add_connection_analysis data).get? i = some row →
        (i + 1 < data.length →
          (dget row (S (r"next_country_match")) = checkMark
            ∨ dget row (S (r"next_country_match")) = crossMark)
          ∧ (dget row (S (r"next_city_match")) = checkMark
            ∨ dget row (S (r"next_city_match")) = crossMark))
        ∧ (i + 1 = data.length →
          dget row (S (r"next_country_match")) = naMark
          ∧ dget row (S (r"next_city_match")) = naMark))
    ∧ ((parser_add_connection_analysis data).length = data.length
      ∧ ∀ i row, (parser_add_connection_analysis data).get? i = some row →
        (i + 1 < data.length →
          (dget row (S (r"next_country_match")) = checkMark
            ∨ dget row (S (r"next_country_match")) = crossMark)
          ∧ (dget row (S (r"next_city_match")) = checkMark
            ∨ dget row (S (r"next_city_match")) = crossMark))
        ∧ (i + 1 = data.length →
          dget row (S (r"next_country_match")) = naMark
          ∧ dget row (S (r"next_city_match")) = naMark))
    ∧ (∀ d : List Row, d.length < 2 →
        add_connection_analysis d = d ∧ parser_add_connection_analysis d = d) := by
  have hns : ¬ data.length < 2 := by omega
  refine ⟨⟨?_, ?_⟩, ⟨?_, ?_⟩, ?_⟩
  · rw [add_connection_analysis, if_neg hns]
    exact connAux_length data
  · intro i row h
    rw [add_connection_analysis, if_neg hns] at h
    obtain ⟨h1, hlast⟩ := connAux_get data i row h
    refine ⟨fun hlt => ?_, fun heq => ?_⟩
    · obtain ⟨a, b, -, -, hr⟩ := h1 hlt
      rw [hr]
      exact annotateRow_cols a b
    · obtain ⟨a, -, hr⟩ := hlast heq
      rw [hr]
      exact annotateLast_cols a
  · rw [parser_add_connection_analysis, if_neg hns]
    exact parserConnAux_length data
  · intro i row h
    rw [parser_add_connection_analysis, if_neg hns] at h
    obtain ⟨h1, hlast⟩ := parserConnAux_get data i row h
    refine ⟨fun hlt => ?_, fun heq => ?_⟩
    · obtain ⟨a, b, -, -, hr⟩ := h1 hlt
      rw [hr]
      exact parserAnnotateRow_cols a b
    · obtain ⟨a, -, hr⟩ := hlast heq
      rw [hr]
      exact parserAnnotateLast_cols a
  · intro d hd
    exact ⟨by rw [add_connection_analysis, if_pos hd],
      by rw [parser_add_connection_analysis, if_pos hd]⟩

/-- Witness for C9 on a concrete two-row table: the final row carries
`N/A` in both match columns. -/
theorem claim_C9_witness :
    ∃ row, (add_connection_analysis [[], []]).get? 1 = some row
      ∧ dget row (S (r"next_country_match")) = naMark
      ∧ dget row (S (r"next_city_match")) = naMark := by
  have h := claim_C9 [[], []] (by decide)
  refine ⟨annotateLast [], rfl, ?_, ?_⟩
  · exact ((h.1.2 1 (annotateLast []) rfl).2 (by decide)).1
  · exact ((h.1.2 1 (annotateLast []) rfl).2 (by decide)).2

theorem idxOfChar_not_mem (c : Nat) : ∀ s : Pstr, c ∉ s → idxOfChar s c = none := by
  intro s
  induction s with
  | nil => intro _; rfl
  | cons x xs ih =>
    intro h
    rw [idxOfChar, if_neg (fun he => h (by rw [he]; simp)), ih (fun hm => h (by simp [hm]))]
    rfl

theorem idxOfChar_first (c : Nat) : ∀ (pre rest : Pstr), c ∉ pre →
    idxOfChar (pre ++ c :: rest) c = some pre.length := by
  intro pre
  induction pre with
  | nil => intro rest _; simp [idxOfChar]
  | cons x xs ih =>
    intro rest h
    rw [List.cons_append, idxOfChar, if_neg (fun he => h (by rw [he]; simp)),
      ih rest (fun hm => h (by simp [hm]))]
    rfl

theorem rIdxOfChar_not_mem (c : Nat) (s : Pstr) (h : c ∉ s) : rIdxOfChar s c = none := by
  rw [rIdxOfChar, idxOfChar_not_mem c s.reverse (by simpa using h)]

theorem rIdxOfChar_last (c : Nat) (init post : Pstr) (h : c ∉ post) :
    rIdxOfChar (init ++ c :: post) c = some init.length := by
  rw [rIdxOfChar]
  have hrev : (init ++ c :: post).reverse = post.reverse ++ c :: init.reverse := by
    rw [List.reverse_append, List.reverse_cons, List.append_assoc]
    simp
  rw [hrev, idxOfChar_first c post.reverse init.reverse (by simpa using h)]
  have : (init ++ c :: post).length = init.length + post.length + 1 := by
    simp [List.length_append]
    omega
  rw [this]
  simp only [List.length_reverse, Option.some.injEq]
  omega

theorem take_len_plus : ∀ (l₁ l₂ : Pstr) (n : Nat),
    (l₁ ++ l₂).take (l₁.length + n) = l₁ ++ l₂.take n := by
  intro l₁
  induction l₁ with
  | nil => intro l₂ n; simp
  | cons x xs ih =>
    intro l₂ n
    rw [List.cons_append, List.length_cons,
      show xs.length + 1 + n = (xs.length + n) + 1 from by omega, List.take_succ_cons,
      ih l₂ n, List.cons_append]

/-- C7 counterexample: on the response text `x [1] y [2] z` the code
slices from the first `'['` to the last `']'` — the unparseable
`[1] y [2]` — and yields no candidates, while parsing the first balanced
`[...]` span would yield the array `[1]`. -/
theorem claim_C7_counterexample :
    analyzeContent (S (r"x [1] y [2] z")) ≠ specAnalyze (S (r"x [1] y [2] z")) := by
  intro h
  rw [show analyzeContent (S (r"x [1] y [2] z")) = [] from rfl,
    show specAnalyze (S (r"x [1] y [2] z")) = [JVal.jnum 1] from rfl] at h
  exact List.noConfusion h

/-- C7 (amended): the orchestrator slices the response from the first
`'['` to the last `']'` (not the first balanced span) and parses that
slice as JSON; a response without `'['` or without `']'`, or whose slice
fails to parse as a JSON list, yields the empty candidate list, and the
parsing step is a total function (no exception can escape it). -/
theorem claim_C7 :
    (∀ pre mid post : Pstr, 91 ∉ pre → 93 ∉ post →
      analyzeContent (pre ++ 91 :: mid ++ 93 :: post) =
        (match jsonLoads (91 :: mid ++ [93]) with
         | some (JVal.jarr l) => l
         | _ => []))
    ∧ (∀ content : Pstr, 91 ∉ content → analyzeContent content = [])
    ∧ (∀ content : Pstr, 93 ∉ content → analyzeContent content = []) := by
  refine ⟨?_, ?_, ?_⟩
  · intro pre mid post hpre hpost
    simp only [List.cons_append, List.append_assoc]
    have hidx := idxOfChar_first 91 pre (mid ++ 93 :: post) hpre
    have hridx : rIdxOfChar (pre ++ 91 :: (mid ++ 93 :: post)) 93
        = some (pre.length + mid.length + 1) := by
      have h0 := rIdxOfChar_last 93 (pre ++ 91 :: mid) post hpost
      have he : (pre ++ 91 :: mid) ++ 93 :: post = pre ++ 91 :: (mid ++ 93 :: post) := by
        simp
      rw [he] at h0
      rw [h0]
      simp only [List.length_append, List.length_cons, Option.some.injEq]
      omega
    rw [analyzeContent]
    simp only [hidx, hridx]
    rw [if_pos (show pre.length < pre.length + mid.length + 1 + 1 from by omega)]
    have hdrop : (pre ++ 91 :: (mid ++ 93 :: post)).drop pre.length
        = 91 :: (mid ++ 93 :: post) := List.drop_left pre _
    rw [hdrop]
    have htake : (91 :: (mid ++ 93 :: post) : Pstr).take
          (pre.length + mid.length + 1 + 1 - pre.length) = 91 :: (mid ++ [93]) := by
      rw [show pre.length + mid.length + 1 + 1 - pre.length = mid.length + 1 + 1 from by omega,
        List.take_succ_cons, take_len_plus mid (93 :: post) 1]
      rfl
    rw [htake]
    cases jsonLoads (91 :: (mid ++ [93])) with
    | none => rfl
    | some v => cases v <;> rfl
  · intro content h
    rw [analyzeContent, idxOfChar_not_mem 91 content h]
  · intro content h
    rw [analyzeContent, rIdxOfChar_not_mem 93 content h]
    cases idxOfChar content 91 <;> rfl

/-- Witness for C7 at a concrete response: `x [1] z` contains exactly the
slice `[1]`, which parses to the one-element array. -/
theorem claim_C7_witness :
    analyzeContent (S (r"x ") ++ 91 :: [49] ++ 93 :: S (r" z")) = [JVal.jnum 1] := by
  have h := claim_C7.1 (S (r"x ")) [49] (S (r" z")) (by decide) (by decide)
  exact h.trans rfl

theorem addToGroups_lookup (k : Pstr) (e : Entry) :
    ∀ (g : List (Pstr × List Entry)) (k' : Pstr),
      (addToGroups g k e).lookup k'
        = if k' = k then some (((g.lookup k).getD []) ++ [e]) else g.lookup k' := by
  intro g
  induction g with
  | nil =>
    intro k'
    by_cases h : k' = k
    · simp [addToGroups, List.lookup_cons, h]
    · simp [addToGroups, List.lookup_cons, h, beq_eq_false_iff_ne.mpr h]
  | cons p rest ih =>
    intro k'
    obtain ⟨k0, es⟩ := p
    by_cases h0 : k0 = k
    · subst h0
      by_cases h : k' = k0
      · simp [addToGroups, List.lookup_cons, h]
      · simp [addToGroups, List.lookup_cons, h, beq_eq_false_iff_ne.mpr h]
    · have hk0 : k ≠ k0 := fun hc => h0 hc.symm
      by_cases h : k' = k0
      · subst h
        simp [addToGroups, h0, List.lookup_cons, beq_eq_false_iff_ne.mpr hk0]
      · simp only [addToGroups, if_neg h0, List.lookup_cons,
          beq_eq_false_iff_ne.mpr h, ih k']
        by_cases hk : k' = k
        · simp [hk, List.lookup_cons, beq_eq_false_iff_ne.mpr hk0]
        · simp [hk, List.lookup_cons, beq_eq_false_iff_ne.mpr h]

theorem addToGroups_keys (k : Pstr) (e : Entry) :
    ∀ g : List (Pstr × List Entry),
      (addToGroups g k e).map Prod.fst
        = if k ∈ g.map Prod.fst then g.map Prod.fst else g.map Prod.fst ++ [k] := by
  intro g
  induction g with
  | nil => simp [addToGroups]
  | cons p rest ih =>
    obtain ⟨k0, es⟩ := p
    by_cases h0 : k0 = k
    · subst h0
      simp [addToGroups]
    · simp only [addToGroups, if_neg h0, List.map_cons, ih]
      by_cases h : k ∈ rest.map Prod.fst
      · rw [if_pos h, if_pos (by simp [List.mem_cons, h])]
      · have hn : k ∉ (k0 :: rest.map Prod.fst : List Pstr) := by
          simp only [List.mem_cons]
          push_neg
          exact ⟨fun hc => h0 hc.symm, h⟩
        rw [if_neg h, if_neg (by simpa using hn)]
        simp

theorem buildGroups_append (td : List Entry) (e : Entry) :
    buildGroups (td ++ [e]) = addToGroups (buildGroups td) (joinKey e) e := by
  unfold buildGroups
  rw [List.foldl_append]
  rfl

theorem buildGroups_lookup (td : List Entry) : ∀ k : Pstr,
    ((buildGroups td).lookup k).getD [] = td.filter (fun e => joinKey e == k) := by
  induction td using List.reverseRecOn with
  | nil => intro k; rfl
  | append_singleton td e ih =>
    intro k
    rw [buildGroups_append, addToGroups_lookup, List.filter_append]
    by_cases h : k = joinKey e
    · subst h
      rw [if_pos rfl, Option.getD_some, ih (joinKey e)]
      congr 1
      simp [List.filter]
    · rw [if_neg h, ih k]
      have hne : (joinKey e == k) = false :=
        beq_eq_false_iff_ne.mpr (fun hc => h hc.symm)
      simp [List.filter, hne]

theorem buildGroups_keys_nodup (td : List Entry) :
    ((buildGroups td).map Prod.fst).Nodup := by
  induction td using List.reverseRecOn with
  | nil => exact List.nodup_nil
  | append_singleton td e ih =>
    rw [buildGroups_append, addToGroups_keys]
    by_cases h : joinKey e ∈ (buildGroups td).map Prod.fst
    · rw [if_pos h]
      exact ih
    · rw [if_neg h]
      refine List.nodup_append.mpr ⟨ih, List.nodup_singleton _, fun a ha => ?_⟩
      intro hmem
      rw [List.mem_singleton] at hmem
      subst hmem
      exact h ha

theorem mem_lookup_nodup {β : Type} : ∀ (l : List (Pstr × β)) (k : Pstr) (v : β),
    (l.map Prod.fst).Nodup → (k, v) ∈ l → l.lookup k = some v := by
  intro l
  induction l with
  | nil => intro k v _ h; simp at h
  | cons p rest ih =>
    intro k v hnd hm
    obtain ⟨k0, v0⟩ := p
    simp only [List.map_cons, List.nodup_cons] at hnd
    rcases List.mem_cons.mp hm with h | h
    · rw [show k = k0 from congrArg Prod.fst h, show v = v0 from congrArg Prod.snd h]
      simp [List.lookup_cons]
    · have hk : k ≠ k0 := by
        intro hc
        subst hc
        exact hnd.1 (List.mem_map.mpr ⟨(k, v), h, rfl⟩)
      rw [List.lookup_cons]
      simp only [beq_eq_false_iff_ne.mpr hk]
      exact ih k v hnd.2 h

theorem buildGroups_bucket_char (td : List Entry) :
    ∀ p ∈ buildGroups td, p.2 = td.filter (fun e => joinKey e == p.1) := by
  intro p hp
  have h1 : (buildGroups td).lookup p.1 = some p.2 :=
    mem_lookup_nodup (buildGroups td) p.1 p.2 (buildGroups_keys_nodup td)
      (by obtain ⟨a, b⟩ := p; exact hp)
  have h2 := buildGroups_lookup td p.1
  rw [h1, Option.getD_some] at h2
  exact h2

theorem multEvents_eq (td : List Entry) :
    multEvents (buildGroups td)
      = ((buildGroups td).map Prod.fst).filterMap (fun k =>
          if 1 < (td.filter (fun e => joinKey e == k)).length then
            some (IncEvent.multiple_departures (splitKey k).1 (splitKey k).2
              (td.filter (fun e => joinKey e == k)).length
              (td.filter (fun e => joinKey e == k)))
          else none) := by
  unfold multEvents
  rw [List.filterMap_map]
  apply List.filterMap_congr
  intro p hp
  rw [buildGroups_bucket_char td p hp]
  rfl

theorem pairEvents_eq : ∀ td : List Entry,
    pairEvents td = (allPairs td).filterMap (fun p => overlapEvent p.1 p.2) := by
  intro td
  induction td with
  | nil => rfl
  | cons e rest ih =>
    rw [pairEvents, allPairs, List.filterMap_append, ih, List.filterMap_map]
    rfl

theorem overlapEvent_some (e1 e2 : Entry) (t1 t2 : Nat)
    (hc : e1.departure_city = e2.departure_city)
    (hd : e1.departure_date = e2.departure_date)
    (hn1 : e1.departure_time ≠ []) (hn2 : e2.departure_time ≠ [])
    (hp1 : parseTimeHM e1.departure_time = some t1)
    (hp2 : parseTimeHM e2.departure_time = some t2)
    (hdiff : max t1 t2 - min t1 t2 < 120) :
    overlapEvent e1 e2
      = some (IncEvent.overlapping_times e1.departure_city e1.departure_date
          e1.departure_time e2.departure_time e1 e2) := by
  unfold overlapEvent
  rw [if_pos ⟨hc, hd, hn1, hn2⟩]
  simp only [hp1, hp2]
  rw [if_pos hdiff]

theorem overlapEvent_shape (e1 e2 : Entry) (ev : IncEvent)
    (h : overlapEvent e1 e2 = some ev) :
    e1.departure_city = e2.departure_city ∧ e1.departure_date = e2.departure_date
    ∧ e1.departure_time ≠ [] ∧ e2.departure_time ≠ []
    ∧ ∃ t1 t2, parseTimeHM e1.departure_time = some t1
        ∧ parseTimeHM e2.departure_time = some t2 ∧ max t1 t2 - min t1 t2 < 120
        ∧ ev = IncEvent.overlapping_times e1.departure_city e1.departure_date
            e1.departure_time e2.departure_time e1 e2 := by
  unfold overlapEvent at h
  split at h
  · rename_i hcond
    cases hp1 : parseTimeHM e1.departure_time with
    | none => rw [hp1] at h; simp at h
    | some t1 =>
      cases hp2 : parseTimeHM e2.departure_time with
      | none => rw [hp1, hp2] at h; simp at h
      | some t2 =>
        simp only [hp1, hp2] at h
        split at h
        · rename_i hdiff
          exact ⟨hcond.1, hcond.2.1, hcond.2.2.1, hcond.2.2.2, t1, t2, rfl, rfl, hdiff,
            (Option.some.inj h).symm⟩
        · simp at h
  · simp at h

/-- C8 counterexample: the legs depart from different raw cities `A_B`
and `A` on different raw dates, so grouping by the raw pair yields no
group of size above one; yet the code's underscore-joined keys collide
and it emits a `multiple_departures` event (whose reported city `A` is
neither leg's city). -/
theorem claim_C8_counterexample :
    detect_incongruent_events [exU1, exU2]
      = [IncEvent.multiple_departures (S (r"A")) (S (r"B_C")) 2 [exU1, exU2]]
    ∧ exU1.departure_city ≠ exU2.departure_city
    ∧ exU1.departure_date ≠ exU2.departure_date
    ∧ exU1.departure_city ≠ S (r"A") := by
  refine ⟨by decide, by decide, by decide, by decide⟩

/-- C8 (amended): `detect_incongruent_events` groups legs by the joined
key `city + '_' + date` (so distinct `(city, date)` pairs whose joined
keys collide fall into one group, and the reported city/date are
recovered by splitting at the first underscore); it emits one
`multiple_departures` event per joined-key group of size above one,
carrying the group's size, with the key list duplicate-free, and one
`overlapping_times` event per ordered pair `i < j` with identical raw
departure city and date and non-empty, parseable times less than two
hours apart; the detector is a total function.  The spec's concrete
examples hold: two London (LHR) legs at 18:25 and 19:30 yield exactly
one `overlapping_times` event, and three same-city/date legs yield one
`multiple_departures` event of count 3. -/
theorem claim_C8 :
    (∀ td : List Entry,
      detect_incongruent_events td
        = ((buildGroups td).map Prod.fst).filterMap (fun k =>
            if 1 < (td.filter (fun e => joinKey e == k)).length then
              some (IncEvent.multiple_departures (splitKey k).1 (splitKey k).2
                (td.filter (fun e => joinKey e == k)).length
                (td.filter (fun e => joinKey e == k)))
            else none)
          ++ (allPairs td).filterMap (fun p => overlapEvent p.1 p.2)
      ∧ ((buildGroups td).map Prod.fst).Nodup)
    ∧ (∀ e1 e2 ev, overlapEvent e1 e2 = some ev →
        e1.departure_city = e2.departure_city ∧ e1.departure_date = e2.departure_date
        ∧ ∃ t1 t2, parseTimeHM e1.departure_time = some t1
            ∧ parseTimeHM e2.departure_time = some t2 ∧ max t1 t2 - min t1 t2 < 120
            ∧ ev = IncEvent.overlapping_times e1.departure_city e1.departure_date
                e1.departure_time e2.departure_time e1 e2)
    ∧ (∀ e1 e2 t1 t2, e1.departure_city = e2.departure_city →
        e1.departure_date = e2.departure_date →
        e1.departure_time ≠ [] → e2.departure_time ≠ [] →
        parseTimeHM e1.departure_time = some t1 →
        parseTimeHM e2.departure_time = some t2 →
        max t1 t2 - min t1 t2 < 120 →
        overlapEvent e1 e2
          = some (IncEvent.overlapping_times e1.departure_city e1.departure_date
              e1.departure_time e2.departure_time e1 e2))
    ∧ detect_incongruent_events [exLon1, exLon2]
        = [IncEvent.multiple_departures (S (r"London (LHR)")) (S (r"2023-01-01")) 2
             [exLon1, exLon2],
           IncEvent.overlapping_times (S (r"London (LHR)")) (S (r"2023-01-01"))
             (S (r"18:25")) (S (r"19:30")) exLon1 exLon2]
    ∧ detect_incongruent_events [exX, exX, exX]
        = [IncEvent.multiple_departures (S (r"X")) (S (r"D")) 3 [exX, exX, exX]] := by
  refine ⟨?_, ?_, ?_, by decide, by decide⟩
  · intro td
    refine ⟨?_, buildGroups_keys_nodup td⟩
    rw [detect_incongruent_events, multEvents_eq, pairEvents_eq]
  · intro e1 e2 ev h
    obtain ⟨h1, h2, -, -, t1, t2, hp1, hp2, hdiff, hev⟩ := overlapEvent_shape e1 e2 ev h
    exact ⟨h1, h2, t1, t2, hp1, hp2, hdiff, hev⟩
  · intro e1 e2 t1 t2 hc hd hn1 hn2 hp1 hp2 hdiff
    exact overlapEvent_some e1 e2 t1 t2 hc hd hn1 hn2 hp1 hp2 hdiff

/-- Witness for C8: the two concrete London legs produce exactly the
overlapping-times event via the pairwise rule. -/
theorem claim_C8_witness :
    overlapEvent exLon1 exLon2
      = some (IncEvent.overlapping_times exLon1.departure_city exLon1.departure_date
          exLon1.departure_time exLon2.departure_time exLon1 exLon2) :=
  claim_C8.2.2.1 exLon1 exLon2 1105 1170 (by decide) (by decide) (by decide) (by decide)
    (by decide) (by decide) (by decide)
